import Mathlib

/-!
Verification development for the `zweig` library (`zweig.py`): a Python
source-code renderer (`to_source`) driven by a precedence tower, a stateful
source writer, and a structural dumper (`dump`).

The embedding below translates `zweig.py` into Lean:

* `PyClass` models the Python classes used as keys of the precedence tower
  (`_precedence_tower`, `_node2lower_equal_upper_nodes`,
  `_requires_parentheses`).
* `Ast` models the (Python 3) AST node catalog consumed by the renderer,
  one constructor per node class with the node's fields in declared order.
  Context fields (`Load`/`Store`) are not modelled: no rendering rule reads
  them.  Numeric literals are modelled as integers.
* `_SourceWriter` state is `WriterState` (fields `indentation_level`,
  `newline`); its `StringIO` output buffer is append-only, so each writer
  action is modelled as a function `Vis` returning the text it appends,
  the final writer state, and the exception it raises, if any (a raised
  exception propagates and skips the rest of the computation, but the
  writer object and its state survive, as in Python).
* The `visit_*` methods become the mutually recursive `visit` family.
  Dispatch on a node class with no `visit_` method falls back to
  `ast.NodeVisitor.generic_visit`, which visits the node's AST children
  and emits nothing itself; the classes in the catalog without a rendering
  rule (`NameConstant`, `Index`) are modelled accordingly.
-/

namespace Zweig

/-- `PY2 = sys.version_info[0] == 2` (zweig.py line 19).  The embedding
models execution under Python 3, where this flag is false.  Decision
functions that consult the flag take it as an explicit argument so that
both values can be examined. -/
def PY2 : Bool := false

/-! ## Operator tags

The operator node classes carry no fields; they are modelled as plain
enumerations, mirroring `ast.boolop`, `ast.operator`, `ast.unaryop`,
`ast.cmpop`. -/

inductive boolop where
  | And | Or
deriving DecidableEq, Repr

inductive operator where
  | Add | Sub | Mult | Div | Mod | Pow | LShift | RShift
  | BitOr | BitXor | BitAnd | FloorDiv
deriving DecidableEq, Repr

inductive unaryop where
  | Invert | Not | UAdd | USub
deriving DecidableEq, Repr

inductive cmpop where
  | Eq | NotEq | Lt | LtE | Gt | GtE | Is | IsNot | In | NotIn
deriving DecidableEq, Repr

/-- Values a `NameConstant` node can hold (`True`, `False`, `None`). -/
inductive NameConstantValue where
  | PyTrue | PyFalse | PyNone
deriving DecidableEq, Repr

/-! ## The AST node catalog

One constructor per node class, fields in the declared `_fields` order of
the Python 3 catalog the renderer targets (`Call` and `ClassDef` still
carry `starargs`/`kwargs`, and `arguments.vararg`/`arguments.kwarg` are
identifier strings, exactly as `zweig.py` consumes them).  The `arg`
node's second field is its annotation. -/

inductive Ast where
  -- statements
  | Module (body : List Ast)
  | FunctionDef (name : String) (args : Ast) (body : List Ast)
      (decorator_list : List Ast) (returns : Option Ast)
  | ClassDef (name : String) (bases : List Ast) (keywords : List Ast)
      (starargs : Option Ast) (kwargs : Option Ast) (body : List Ast)
      (decorator_list : List Ast)
  | Return (value : Option Ast)
  | Delete (targets : List Ast)
  | Assign (targets : List Ast) (value : Ast)
  | AugAssign (target : Ast) (op : operator) (value : Ast)
  | For (target : Ast) (iter : Ast) (body : List Ast) (orelse : List Ast)
  | While (test : Ast) (body : List Ast) (orelse : List Ast)
  | If (test : Ast) (body : List Ast) (orelse : List Ast)
  | With (items : List Ast) (body : List Ast)
  | Raise (exc : Option Ast) (cause : Option Ast)
  | Try (body : List Ast) (handlers : List Ast) (orelse : List Ast)
      (finalbody : List Ast)
  | Assert (test : Ast) (msg : Option Ast)
  | Import (names : List Ast)
  | ImportFrom (module : Option String) (names : List Ast) (level : Int)
  | Global (names : List String)
  | Nonlocal (names : List String)
  | Expr (value : Ast)
  | Pass
  | Break
  | Continue
  -- expressions
  | BoolOp (op : boolop) (values : List Ast)
  | BinOp (left : Ast) (op : operator) (right : Ast)
  | UnaryOp (op : unaryop) (operand : Ast)
  | Lambda (args : Ast) (body : Ast)
  | IfExp (test : Ast) (body : Ast) (orelse : Ast)
  | Dict (keys : List Ast) (values : List Ast)
  | Set (elts : List Ast)
  | ListComp (elt : Ast) (generators : List Ast)
  | SetComp (elt : Ast) (generators : List Ast)
  | DictComp (key : Ast) (value : Ast) (generators : List Ast)
  | GeneratorExp (elt : Ast) (generators : List Ast)
  | Yield (value : Option Ast)
  | YieldFrom (value : Ast)
  | Compare (left : Ast) (ops : List cmpop) (comparators : List Ast)
  | Call (func : Ast) (args : List Ast) (keywords : List Ast)
      (starargs : Option Ast) (kwargs : Option Ast)
  | Num (n : Int)
  | Str (s : String)
  | Bytes (s : String)
  | Ellipsis
  | NameConstant (value : NameConstantValue)
  | Attribute (value : Ast) (attr : String)
  | Subscript (value : Ast) (slice : Ast)
  | Starred (value : Ast)
  | Name (id : String)
  | List (elts : List Ast)
  | Tuple (elts : List Ast)
  | Slice (lower : Option Ast) (upper : Option Ast) (step : Option Ast)
  | Index (value : Ast)
  -- auxiliary nodes
  | comprehension (target : Ast) (iter : Ast) (ifs : List Ast)
  | ExceptHandler (type : Option Ast) (name : Option String)
      (body : List Ast)
  | arguments (args : List Ast) (vararg : Option String)
      (kwonlyargs : List Ast) (kw_defaults : List (Option Ast))
      (kwarg : Option String) (defaults : List Ast)
  | arg (arg : String) (annot : Option Ast)
  | keyword (arg : String) (value : Ast)
  | alias (name : String) (asname : Option String)
  | withitem (context_expr : Ast) (optional_vars : Option Ast)

/-! ## The precedence model -/

/-- The Python classes that occur as operator identities in the precedence
model: every class in `_precedence_tower` together with the remaining node
classes of the catalog (which `_normalize` can also produce). -/
inductive PyClass where
  | Lambda | IfExp | Or | And | Not
  | In | NotIn | Is | IsNot | Lt | LtE | Gt | GtE | NotEq | Eq
  | BitOr | BitXor | BitAnd | LShift | RShift
  | Add | Sub | Mult | Div | FloorDiv | Mod
  | UAdd | USub | Invert
  | Pow
  | Subscript | Call | Attribute
  | Tuple | List | Dict | Set | ListComp | DictComp | SetComp
  -- classes outside the tower
  | Module | FunctionDef | ClassDef | Return | Delete | Assign | AugAssign
  | For | While | If | With | Raise | Try | Assert | Import | ImportFrom
  | Global | Nonlocal | Expr | Pass | Break | Continue
  | GeneratorExp | Yield | YieldFrom | Compare | Num | Str | Bytes
  | Ellipsis | NameConstant | Starred | Name | Slice | Index
  | comprehension | ExceptHandler | arguments | arg | keyword | alias
  | withitem
deriving DecidableEq, Fintype, Repr

def boolop_cls : boolop → PyClass
  | .And => .And
  | .Or => .Or

def operator_cls : operator → PyClass
  | .Add => .Add
  | .Sub => .Sub
  | .Mult => .Mult
  | .Div => .Div
  | .Mod => .Mod
  | .Pow => .Pow
  | .LShift => .LShift
  | .RShift => .RShift
  | .BitOr => .BitOr
  | .BitXor => .BitXor
  | .BitAnd => .BitAnd
  | .FloorDiv => .FloorDiv

def unaryop_cls : unaryop → PyClass
  | .Invert => .Invert
  | .Not => .Not
  | .UAdd => .UAdd
  | .USub => .USub

/-- The class of a node, as `_normalize` inside `_requires_parentheses`
computes it: for `BoolOp`/`BinOp`/`UnaryOp` nodes the class of the
operator tag (`obj.op.__class__`), otherwise the node's own class
(`obj.__class__`). -/
def _normalize : Ast → PyClass
  | .BoolOp op _ => boolop_cls op
  | .BinOp _ op _ => operator_cls op
  | .UnaryOp op _ => unaryop_cls op
  | .Module _ => .Module
  | .FunctionDef _ _ _ _ _ => .FunctionDef
  | .ClassDef _ _ _ _ _ _ _ => .ClassDef
  | .Return _ => .Return
  | .Delete _ => .Delete
  | .Assign _ _ => .Assign
  | .AugAssign _ _ _ => .AugAssign
  | .For _ _ _ _ => .For
  | .While _ _ _ => .While
  | .If _ _ _ => .If
  | .With _ _ => .With
  | .Raise _ _ => .Raise
  | .Try _ _ _ _ => .Try
  | .Assert _ _ => .Assert
  | .Import _ => .Import
  | .ImportFrom _ _ _ => .ImportFrom
  | .Global _ => .Global
  | .Nonlocal _ => .Nonlocal
  | .Expr _ => .Expr
  | .Pass => .Pass
  | .Break => .Break
  | .Continue => .Continue
  | .Lambda _ _ => .Lambda
  | .IfExp _ _ _ => .IfExp
  | .Dict _ _ => .Dict
  | .Set _ => .Set
  | .ListComp _ _ => .ListComp
  | .SetComp _ _ => .SetComp
  | .DictComp _ _ _ => .DictComp
  | .GeneratorExp _ _ => .GeneratorExp
  | .Yield _ => .Yield
  | .YieldFrom _ => .YieldFrom
  | .Compare _ _ _ => .Compare
  | .Call _ _ _ _ _ => .Call
  | .Num _ => .Num
  | .Str _ => .Str
  | .Bytes _ => .Bytes
  | .Ellipsis => .Ellipsis
  | .NameConstant _ => .NameConstant
  | .Attribute _ _ => .Attribute
  | .Subscript _ _ => .Subscript
  | .Starred _ => .Starred
  | .Name _ => .Name
  | .List _ => .List
  | .Tuple _ => .Tuple
  | .Slice _ _ _ => .Slice
  | .Index _ => .Index
  | .comprehension _ _ _ => .comprehension
  | .ExceptHandler _ _ _ => .ExceptHandler
  | .arguments _ _ _ _ _ _ => .arguments
  | .arg _ _ => .arg
  | .keyword _ _ => .keyword
  | .alias _ _ => .alias
  | .withitem _ _ => .withitem

/-- `_precedence_tower`: the ordered tiers, loosest-binding first,
tightest-binding last.  The Python source uses sets; only membership is
ever consulted, so each tier is a list here. -/
def _precedence_tower : List (List PyClass) :=
  [ [.Lambda],
    [.IfExp],
    [.Or],
    [.And],
    [.Not],
    [.In, .NotIn, .Is, .IsNot, .Lt, .LtE, .Gt, .GtE, .NotEq, .Eq],
    [.BitOr],
    [.BitXor],
    [.BitAnd],
    [.LShift, .RShift],
    [.Add, .Sub],
    [.Mult, .Div, .FloorDiv, .Mod],
    [.UAdd, .USub, .Invert],
    [.Pow],
    [.Subscript, .Call, .Attribute],
    [.Tuple, .List, .Dict, .Set, .ListComp, .DictComp, .SetComp] ]

/-- The tier index of a class in `_precedence_tower` (`none` when the class
is not in the tower). -/
def tier_index (c : PyClass) : Option Nat :=
  _precedence_tower.findIdx? (fun tier => tier.contains c)

/-- `_node2lower_equal_upper_nodes`: for a class in the tower, the classes
strictly looser than its tier, its own tier, and the classes strictly
tighter.  In the source this is a dict built once by set algebra over the
tower; a class outside the tower has no entry (lookup raises `KeyError`
in Python, modelled as `none`). -/
def _node2lower_equal_upper_nodes (c : PyClass) :
    Option (List PyClass × List PyClass × List PyClass) :=
  match tier_index c with
  | some i =>
      some ((_precedence_tower.take i).flatten,
            (_precedence_tower.drop i).head?.getD [],
            (_precedence_tower.drop (i + 1)).flatten)
  | none => none

/-- `_requires_parentheses(parent, child)` after `_normalize` has been
applied to both arguments (the call sites below pass normalized classes):
the child requires parentheses iff its class lies in the parent tier's
`lower | equal` set.  A parent class outside the tower would raise
`KeyError` in Python; no renderer call site passes one, and that case is
mapped to `false` here. -/
def _requires_parentheses (parent child : PyClass) : Bool :=
  match _node2lower_equal_upper_nodes parent with
  | some (lower, equal, _) => (lower ++ equal).contains child
  | none => false

/-- `isinstance(node, ast.Num) and node.n < 0` (the Python 2 guard in
`visit_BinOp`). -/
def is_negative_num : Ast → Bool
  | .Num n => n < 0
  | _ => false

def is_attribute : Ast → Bool
  | .Attribute _ _ => true
  | _ => false

def is_subscript : Ast → Bool
  | .Subscript _ _ => true
  | _ => false

/-! ### The parenthesization decisions of the renderer

Each decision below is the condition of one parenthesization branch in a
`visit_` method, factored out so it can be named in theorems; the `visit`
family uses these definitions verbatim. -/

/-- `visit_BinOp` left operand: `_requires_parentheses(node, node.left) or
PY2 and isinstance(node.left, ast.Num) and node.left.n < 0`
(for a `BinOp` node, `_normalize node` is the class of `op`). -/
def binop_left_decision (py2 : Bool) (left : Ast) (op : operator) : Bool :=
  _requires_parentheses (operator_cls op) (_normalize left) ||
    (py2 && is_negative_num left)

/-- `visit_BinOp` right operand: `_requires_parentheses(ast.Mult() if
isinstance(node.op, ast.Pow) else node, node.right)`. -/
def binop_right_decision (op : operator) (right : Ast) : Bool :=
  _requires_parentheses
    (match op with
     | .Pow => PyClass.Mult
     | _ => operator_cls op)
    (_normalize right)

/-- `visit_BoolOp`: `_requires_parentheses(node, value)`. -/
def boolop_value_decision (op : boolop) (value : Ast) : Bool :=
  _requires_parentheses (boolop_cls op) (_normalize value)

/-- `visit_UnaryOp`: `_requires_parentheses(node, node.operand)`. -/
def unaryop_operand_decision (op : unaryop) (operand : Ast) : Bool :=
  _requires_parentheses (unaryop_cls op) (_normalize operand)

/-- `visit_IfExp`: `_requires_parentheses(node, child)` for the `body` and
`test` children. -/
def ifexp_child_decision (child : Ast) : Bool :=
  _requires_parentheses .IfExp (_normalize child)

/-- `visit_Call`: `_requires_parentheses(node, node.func)`. -/
def call_func_decision (func : Ast) : Bool :=
  _requires_parentheses .Call (_normalize func)

/-- `visit_Attribute`: `_requires_parentheses(node, node.value) and not
isinstance(node.value, ast.Attribute)`. -/
def attribute_value_decision (value : Ast) : Bool :=
  _requires_parentheses .Attribute (_normalize value) &&
    !(is_attribute value)

/-- `visit_Subscript`: `_requires_parentheses(node, node.value) and not
isinstance(node.value, ast.Subscript)`. -/
def subscript_value_decision (value : Ast) : Bool :=
  _requires_parentheses .Subscript (_normalize value) &&
    !(is_subscript value)

/-! ## The source writer -/

/-- The exceptions the renderer can raise: `statements[-1]` on an empty
list in `visit_statements` (and `node.values[-1]` in `visit_BoolOp`)
raises `IndexError`.  `outOfFuel` is an artifact of the embedding: the
recursion of the `visit` family is driven by a fuel parameter, and this
value signals that the fuel ran out; `to_source` supplies `ast_size` fuel,
which the lemmas below show is always sufficient, so `outOfFuel` never
reaches a caller. -/
inductive PyErr where
  | indexError
  | outOfFuel
deriving DecidableEq, Repr

/-- The mutable state of `_SourceWriter` apart from its output buffer. -/
structure WriterState where
  indentation_level : Nat
  newline : Bool
deriving DecidableEq, Repr

/-- A writer action: from a writer state, the text appended to the output
buffer, the final writer state, and the exception raised, if any. -/
def Vis : Type := WriterState → String × WriterState × Option PyErr

/-- `'    ' * indentation_level`. -/
def indentation_text (lvl : Nat) : String :=
  String.mk (List.replicate (4 * lvl) ' ')

/-- `write`: if at the start of a line, clear the flag and emit the
indentation prefix (via `write_indentation`, whose inner `write` call sees
the cleared flag and appends the prefix verbatim), then append the text. -/
def write (source : String) : Vis := fun w =>
  if w.newline then
    (indentation_text w.indentation_level ++ source,
     { w with newline := false }, none)
  else
    (source, w, none)

/-- `write_newline`: clear the flag if set, append `'\n'` (the inner
`write` sees a cleared flag, so no indentation is emitted), set the flag. -/
def write_newline : Vis := fun w =>
  ("\n", { w with newline := true }, none)

/-- Sequential composition of writer actions; a raised exception skips the
rest of the computation. -/
def seq (a b : Vis) : Vis := fun w =>
  match a w with
  | (s, w1, some e) => (s, w1, some e)
  | (s, w1, none) =>
      match b w1 with
      | (t, w2, r) => (s ++ t, w2, r)

/-- The empty writer action (no output, no state change). -/
def nop : Vis := fun w => ("", w, none)

/-- `statements[-1]` on an empty list. -/
def raise_index_error : Vis := fun w => ("", w, some .indexError)

/-- The out-of-fuel action of the embedding (never reached when the fuel
is at least the `ast_size` of the tree being rendered). -/
def fuel_exhausted : Vis := fun w => ("", w, some .outOfFuel)

/-- `indented()`: increment `indentation_level`, run the body, and
decrement on every exit path (the `try`/`finally` in the context manager
runs the decrement also when the body raised). -/
def indented (body : Vis) : Vis := fun w =>
  match body { w with indentation_level := w.indentation_level + 1 } with
  | (s, w1, r) =>
      (s, { w1 with indentation_level := w1.indentation_level - 1 }, r)

def write_line (source : String) : Vis :=
  seq (write source) write_newline

/-- `writing_statement()`: run the body, then `write_newline` (the plain
`yield` has no `finally`, so the newline is skipped when the body
raises). -/
def writing_statement (body : Vis) : Vis :=
  seq body write_newline

/-- `write_identifier` on Python 3 writes the identifier verbatim. -/
def write_identifier (identifier : String) : Vis :=
  write identifier

/-- Truthiness of an optional string field (`if node.vararg:`): `None` and
the empty string are falsy. -/
def truthy_str : Option String → Bool
  | none => false
  | some s => !s.isEmpty

/-- The blank separating line written by `visit_statements` after a
statement, when that statement is a `FunctionDef` or a `ClassDef`. -/
def blank_after : Ast → Vis
  | .FunctionDef _ _ _ _ _ => write_newline
  | .ClassDef _ _ _ _ _ _ _ => write_newline
  | _ => nop

/-! ### Literal representations

Models of Python's `repr` for the scalar types the renderer prints
(integers, strings, bytes).  Strings are rendered single-quoted with
backslash escapes for the backslash, the quote and the newline. -/

def digit_char : Nat → Char
  | 0 => '0' | 1 => '1' | 2 => '2' | 3 => '3' | 4 => '4'
  | 5 => '5' | 6 => '6' | 7 => '7' | 8 => '8' | _ => '9'

/-- Decimal digits of `n`, most significant first; the first argument is
recursion fuel (any value above the digit count of `n` is enough). -/
def nat_digits : Nat → Nat → List Char
  | 0, _ => []
  | fuel + 1, n =>
      if n < 10 then [digit_char n]
      else nat_digits fuel (n / 10) ++ [digit_char (n % 10)]

def nat_repr (n : Nat) : String := String.mk (nat_digits (n + 1) n)

def int_repr : Int → String
  | .ofNat n => nat_repr n
  | .negSucc n => "-" ++ nat_repr (n + 1)

def str_escape : List Char → List Char
  | [] => []
  | c :: rest =>
      (if c = '\\' then ['\\', '\\']
       else if c = '\'' then ['\\', '\'']
       else if c = '\n' then ['\\', 'n']
       else [c]) ++ str_escape rest

def str_repr (s : String) : String :=
  "'" ++ String.mk (str_escape s.data) ++ "'"

def bytes_repr (s : String) : String := "b" ++ str_repr s

def name_constant_repr : NameConstantValue → String
  | .PyTrue => "True"
  | .PyFalse => "False"
  | .PyNone => "None"

/-! ### Operator tokens (`visit_And` ... `visit_NotIn`) -/

def visit_boolop_tag (op : boolop) : Vis :=
  match op with
  | .And => write " and "
  | .Or => write " or "

def operator_token : operator → String
  | .Add => "+"
  | .Sub => "-"
  | .Mult => "*"
  | .Div => "/"
  | .Mod => "%"
  | .Pow => "**"
  | .LShift => "<<"
  | .RShift => ">>"
  | .BitOr => "|"
  | .BitXor => "^"
  | .BitAnd => "&"
  | .FloorDiv => "//"

def visit_operator_tag (op : operator) : Vis :=
  write (operator_token op)

def unaryop_token : unaryop → String
  | .Invert => "~"
  | .Not => "not "
  | .UAdd => "+"
  | .USub => "-"

def visit_unaryop_tag (op : unaryop) : Vis :=
  write (unaryop_token op)

def cmpop_token : cmpop → String
  | .Eq => "=="
  | .NotEq => "!="
  | .Lt => "<"
  | .LtE => "<="
  | .Gt => ">"
  | .GtE => ">="
  | .Is => "is"
  | .IsNot => "is not"
  | .In => "in"
  | .NotIn => "not in"

def visit_cmpop_tag (op : cmpop) : Vis :=
  write (cmpop_token op)

/-- Comma-separated identifiers (`visit_Global`, `visit_Nonlocal`). -/
def write_comma_separated_identifiers : List String → Vis
  | [] => nop
  | [n] => write_identifier n
  | n :: rest =>
      seq (write_identifier n)
        (seq (write ", ") (write_comma_separated_identifiers rest))

/-! ## The unparser (`visit` family)

One function per loop shape of the source; `visit` itself carries one
match arm per `visit_` method, plus the `generic_visit` fallback arms. -/

mutual

/-- Dispatch on the node class, one arm per `visit_` method of
`_SourceWriter`.  `NameConstant` and `Index` have no `visit_` method: the
inherited `ast.NodeVisitor.generic_visit` visits their AST children
(`NameConstant` has none, `Index` has its `value`) and writes nothing. -/
def visit : Nat → Ast → Vis
  | 0, _ => fuel_exhausted
  | fuel + 1, .Module body => visit_statements fuel body
  | fuel + 1, .FunctionDef name args body decorator_list returns =>
      seq (visit_decorators fuel decorator_list)
        (seq (write "def ")
          (seq (write_identifier name)
            (seq (write "(")
              (seq (visit fuel args)
                (seq (write ")")
                  (seq (match returns with
                        | some r =>
                            if !PY2 then seq (write " -> ") (visit fuel r) else nop
                        | none => nop)
                    (seq (write ":")
                      (seq write_newline
                        (indented (visit_statements fuel body))))))))))
  | fuel + 1, .ClassDef name bases keywords starargs kwargs body decorator_list =>
      seq (visit_decorators fuel decorator_list)
        (seq (write "class ")
          (seq (write_identifier name)
            (seq
              (if !bases.isEmpty ||
                  (!PY2 && (!keywords.isEmpty || starargs.isSome ||
                    kwargs.isSome)) then
                seq (write "(")
                  (seq (write_comma_separated_nodes fuel bases)
                    (seq
                      (if !PY2 then
                        seq
                          (if !keywords.isEmpty then
                            seq (if !bases.isEmpty then write ", " else nop)
                              (write_comma_separated_nodes fuel keywords)
                          else nop)
                          (seq
                            (match starargs with
                             | some sa =>
                                 seq
                                   (if !bases.isEmpty || !keywords.isEmpty then
                                     write ", "
                                   else nop)
                                   (seq (write "*") (visit fuel sa))
                             | none => nop)
                            (match kwargs with
                             | some kw =>
                                 seq
                                   (if !bases.isEmpty || !keywords.isEmpty ||
                                       starargs.isSome then
                                     write ", "
                                   else nop)
                                   (seq (write "**") (visit fuel kw))
                             | none => nop))
                      else nop)
                      (write ")")))
              else nop)
              (seq (write ":")
                (seq write_newline (indented (visit_statements fuel body)))))))
  | fuel + 1, .Return value =>
      writing_statement
        (seq (write "return")
          (match value with
           | some v => seq (write " ") (visit fuel v)
           | none => nop))
  | fuel + 1, .Delete targets =>
      writing_statement
        (seq (write "del ") (write_comma_separated_nodes fuel targets))
  | fuel + 1, .Assign targets value =>
      writing_statement (seq (visit_assign_targets fuel targets) (visit fuel value))
  | fuel + 1, .AugAssign target op value =>
      writing_statement
        (seq (visit fuel target)
          (seq (write " ")
            (seq (visit_operator_tag op)
              (seq (write "= ") (visit fuel value)))))
  | fuel + 1, .For target iter body orelse =>
      seq (write "for ")
        (seq (visit fuel target)
          (seq (write " in ")
            (seq (visit fuel iter)
              (seq (write ":")
                (seq write_newline
                  (seq (indented (visit_statements fuel body))
                    (if !orelse.isEmpty then
                      seq (write_line "else:")
                        (indented (visit_statements fuel orelse))
                    else nop)))))))
  | fuel + 1, .While test body orelse =>
      seq (write "while ")
        (seq (visit fuel test)
          (seq (write ":")
            (seq write_newline
              (seq (indented (visit_statements fuel body))
                (if !orelse.isEmpty then
                  seq (write_line "else:")
                    (indented (visit_statements fuel orelse))
                else nop)))))
  | fuel + 1, .If test body orelse =>
      seq (write "if ")
        (seq (visit fuel test)
          (seq (write ":")
            (seq write_newline
              (seq (indented (visit_statements fuel body))
                (if !orelse.isEmpty then
                  seq (write_line "else:")
                    (indented (visit_statements fuel orelse))
                else nop)))))
  | fuel + 1, .With items body =>
      seq (write "with ")
        (seq (write_comma_separated_nodes fuel items)
          (seq (write ":")
            (seq write_newline (indented (visit_statements fuel body)))))
  | fuel + 1, .Raise exc cause =>
      writing_statement
        (seq (write "raise")
          (seq
            (match exc with
             | some e => seq (write " ") (visit fuel e)
             | none => nop)
            (match cause with
             | some c => seq (write " from ") (visit fuel c)
             | none => nop)))
  | fuel + 1, .Try body handlers orelse finalbody =>
      seq (write_line "try:")
        (seq (indented (visit_statements fuel body))
          (seq (visit_each fuel handlers)
            (seq
              (if !orelse.isEmpty then
                seq (write_line "else:") (indented (visit_statements fuel orelse))
              else nop)
              (if !finalbody.isEmpty then
                seq (write_line "finally:")
                  (indented (visit_statements fuel finalbody))
              else nop))))
  | fuel + 1, .Assert test msg =>
      writing_statement
        (seq (write "assert ")
          (seq (visit fuel test)
            (match msg with
             | some m => seq (write ", ") (visit fuel m)
             | none => nop)))
  | fuel + 1, .Import names =>
      writing_statement
        (seq (write "import ") (write_comma_separated_nodes fuel names))
  | fuel + 1, .ImportFrom module names _level =>
      writing_statement
        (seq (write "from ")
          (seq
            (match module with
             | none => write "."
             | some m => write_identifier m)
            (seq (write " import ") (write_comma_separated_nodes fuel names))))
  | fuel + 1, .Global names =>
      writing_statement
        (seq (write "global ") (write_comma_separated_identifiers names))
  | fuel + 1, .Nonlocal names =>
      writing_statement
        (seq (write "nonlocal ") (write_comma_separated_identifiers names))
  | fuel + 1, .Expr value => writing_statement (visit fuel value)
  | fuel + 1, .Pass => write_line "pass"
  | fuel + 1, .Break => write_line "break"
  | fuel + 1, .Continue => write_line "continue"
  | fuel + 1, .BoolOp op values => visit_boolop_values fuel op values
  | fuel + 1, .BinOp left op right =>
      seq
        (if binop_left_decision PY2 left op then
          seq (write "(") (seq (visit fuel left) (write ")"))
        else visit fuel left)
        (seq (write " ")
          (seq (visit_operator_tag op)
            (seq (write " ")
              (if binop_right_decision op right then
                seq (write "(") (seq (visit fuel right) (write ")"))
              else visit fuel right))))
  | fuel + 1, .UnaryOp op operand =>
      seq (visit_unaryop_tag op)
        (if unaryop_operand_decision op operand then
          seq (write "(") (seq (visit fuel operand) (write ")"))
        else visit fuel operand)
  | fuel + 1, .Lambda args body =>
      seq (write "lambda ")
        (seq (visit fuel args) (seq (write ": ") (visit fuel body)))
  | fuel + 1, .IfExp test body orelse =>
      seq
        (if ifexp_child_decision body then
          seq (write "(") (seq (visit fuel body) (write ")"))
        else visit fuel body)
        (seq (write " if ")
          (seq
            (if ifexp_child_decision test then
              seq (write "(") (seq (visit fuel test) (write ")"))
            else visit fuel test)
            (seq (write " else ") (visit fuel orelse))))
  | fuel + 1, .Dict keys values =>
      seq (write "\x7b")
        (seq (visit_dict_items fuel keys values) (write "\x7d"))
  | fuel + 1, .Set elts =>
      seq (write "\x7b")
        (seq (write_comma_separated_nodes fuel elts) (write "\x7d"))
  | fuel + 1, .ListComp elt generators =>
      seq (write "[")
        (seq (visit fuel elt) (seq (visit_each fuel generators) (write "]")))
  | fuel + 1, .SetComp elt generators =>
      seq (write "\x7b")
        (seq (visit fuel elt) (seq (visit_each fuel generators) (write "\x7d")))
  | fuel + 1, .DictComp key value generators =>
      seq (write "\x7b")
        (seq (visit fuel key)
          (seq (write ": ")
            (seq (visit fuel value)
              (seq (visit_each fuel generators) (write "\x7d")))))
  | fuel + 1, .GeneratorExp elt generators =>
      seq (write "(")
        (seq (visit fuel elt) (seq (visit_each fuel generators) (write ")")))
  | fuel + 1, .Yield value =>
      seq (write "yield")
        (match value with
         | some v => seq (write " ") (visit fuel v)
         | none => nop)
  | fuel + 1, .YieldFrom value => seq (write "yield from ") (visit fuel value)
  | fuel + 1, .Compare left ops comparators =>
      seq (visit fuel left) (visit_compare_rest fuel comparators ops)
  | fuel + 1, .Call func args keywords starargs kwargs =>
      seq
        (if call_func_decision func then
          seq (write "(") (seq (visit fuel func) (write ")"))
        else visit fuel func)
        (seq (write "(")
          (seq (write_comma_separated_nodes fuel args)
            (seq
              (if !keywords.isEmpty then
                seq (if !args.isEmpty then write ", " else nop)
                  (write_comma_separated_nodes fuel keywords)
              else nop)
              (seq
                (match starargs with
                 | some sa =>
                     seq
                       (if !args.isEmpty || !keywords.isEmpty then
                         write ", "
                        else nop)
                       (seq (write "*") (visit fuel sa))
                 | none => nop)
                (seq
                  (match kwargs with
                   | some kw =>
                       seq
                         (if !args.isEmpty || !keywords.isEmpty ||
                             starargs.isSome then
                           write ", "
                         else nop)
                         (seq (write "**") (visit fuel kw))
                   | none => nop)
                  (write ")"))))))
  | fuel + 1, .Num n => write (int_repr n)
  | fuel + 1, .Str s => write (str_repr s)
  | fuel + 1, .Bytes s => write (bytes_repr s)
  | fuel + 1, .Ellipsis => write "..."
  | fuel + 1, .NameConstant _ => nop
  | fuel + 1, .Attribute value attr =>
      seq
        (if attribute_value_decision value then
          seq (write "(") (seq (visit fuel value) (write ")"))
        else visit fuel value)
        (seq (write ".") (write_identifier attr))
  | fuel + 1, .Subscript value slice =>
      seq
        (if subscript_value_decision value then
          seq (write "(") (seq (visit fuel value) (write ")"))
        else visit fuel value)
        (seq (write "[") (seq (visit fuel slice) (write "]")))
  | fuel + 1, .Starred value => seq (write "*") (visit fuel value)
  | fuel + 1, .Name id => write_identifier id
  | fuel + 1, .List elts =>
      seq (write "[") (seq (write_comma_separated_nodes fuel elts) (write "]"))
  | fuel + 1, .Tuple elts => write_comma_separated_nodes fuel elts
  | fuel + 1, .Slice lower upper step =>
      seq
        (match lower with
         | some lo => seq (visit fuel lo) (write ":")
         | none => nop)
        (seq
          (match upper with
           | some up =>
               seq (if lower.isNone then write ":" else nop) (visit fuel up)
           | none => nop)
          (seq
            (match step with
             | some st =>
                 seq (if lower.isNone && upper.isNone then write "::" else nop)
                   (seq
                     (if lower.isSome || upper.isSome then write ":" else nop)
                     (visit fuel st))
             | none => nop)
            (if lower.isNone && upper.isNone && step.isNone then write ":"
             else nop)))
  | fuel + 1, .Index value => visit fuel value
  | fuel + 1, .comprehension target iter ifs =>
      seq (write " for ")
        (seq (visit fuel target)
          (seq (write " in ")
            (seq (visit fuel iter)
              (match ifs with
               | [] => nop
               | _ => seq (write " if ") (visit_comprehension_ifs fuel ifs)))))
  | fuel + 1, .ExceptHandler type name body =>
      seq (write "except")
        (seq
          (match type with
           | some t => seq (write " ") (visit fuel t)
           | none => nop)
          (seq
            (match name with
             | some n => seq (write " as ") (write n)
             | none => nop)
            (seq (write ":")
              (seq write_newline (indented (visit_statements fuel body))))))
  | fuel + 1, .arguments args vararg kwonlyargs kw_defaults kwarg defaults =>
      -- `non_defaults = args[:-len(defaults)]` and `defaults = args[-len(defaults):]`
      -- are rendered by helpers that walk the original `args` field past the
      -- split point `nd`, so `args.take nd` plays `non_defaults` and
      -- `args.drop nd` plays the defaulted slice.
      seq
        (if !args.isEmpty then
          let nd :=
            if !defaults.isEmpty then args.length - defaults.length
            else args.length
          seq
            (if !(args.take nd).isEmpty then visit_leading_args fuel args nd
             else nop)
            (if !(args.drop nd).isEmpty then
              seq (if !(args.take nd).isEmpty then write ", " else nop)
                (visit_default_pairs fuel args nd defaults)
            else nop)
        else nop)
        (seq
          (if truthy_str vararg then
            seq (if !args.isEmpty then write ", " else nop)
              (seq (write "*") (write_identifier (vararg.getD "")))
          else nop)
          (seq
            (if !PY2 && !kwonlyargs.isEmpty then
              seq (if !truthy_str vararg then write "*, " else nop)
                (visit_kwonly_pairs fuel kwonlyargs kw_defaults)
            else nop)
            (if truthy_str kwarg then
              seq
                (if !args.isEmpty || truthy_str vararg ||
                    (!PY2 && !kwonlyargs.isEmpty) then
                  write ", "
                else nop)
                (seq (write "**") (write_identifier (kwarg.getD "")))
            else nop)))
  | fuel + 1, .arg a annot =>
      seq (write a)
        (match annot with
         | some an => seq (write ": ") (visit fuel an)
         | none => nop)
  | fuel + 1, .keyword a value =>
      seq (write_identifier a) (seq (write "=") (visit fuel value))
  | fuel + 1, .alias name asname =>
      seq (write_identifier name)
        (match asname with
         | some asn => seq (write " as ") (write_identifier asn)
         | none => nop)
  | fuel + 1, .withitem context_expr optional_vars =>
      seq (visit fuel context_expr)
        (match optional_vars with
         | some ov => seq (write " as ") (visit fuel ov)
         | none => nop)

/-- `visit_statements`: visit every statement, writing a blank separating
line after each `FunctionDef`/`ClassDef` except the last statement; on an
empty list, `statements[-1]` raises `IndexError`. -/
def visit_statements : Nat → List Ast → Vis
  | 0, _ => fuel_exhausted
  | fuel + 1, [] => raise_index_error
  | fuel + 1, [s] => visit fuel s
  | fuel + 1, s :: rest =>
      seq (seq (visit fuel s) (blank_after s)) (visit_statements fuel rest)

/-- `write_comma_separated_nodes` via `writing_comma_separated`: `", "`
between consecutive items, never before the first or after the last. -/
def write_comma_separated_nodes : Nat → List Ast → Vis
  | 0, _ => fuel_exhausted
  | fuel + 1, [] => nop
  | fuel + 1, [n] => visit fuel n
  | fuel + 1, n :: rest =>
      seq (visit fuel n) (seq (write ", ") (write_comma_separated_nodes fuel rest))

/-- A plain visiting loop (`for x in xs: self.visit(x)`), as used for
comprehension generators and exception handlers. -/
def visit_each : Nat → List Ast → Vis
  | 0, _ => fuel_exhausted
  | fuel + 1, [] => nop
  | fuel + 1, n :: rest => seq (visit fuel n) (visit_each fuel rest)

/-- The decorator loop of `visit_FunctionDef`/`visit_ClassDef`. -/
def visit_decorators : Nat → List Ast → Vis
  | 0, _ => fuel_exhausted
  | fuel + 1, [] => nop
  | fuel + 1, d :: rest =>
      seq (write "@")
        (seq (visit fuel d) (seq write_newline (visit_decorators fuel rest)))

/-- The target loop of `visit_Assign` (`target = ` for every target). -/
def visit_assign_targets : Nat → List Ast → Vis
  | 0, _ => fuel_exhausted
  | fuel + 1, [] => nop
  | fuel + 1, t :: rest =>
      seq (visit fuel t) (seq (write " = ") (visit_assign_targets fuel rest))

/-- The value loop of `visit_BoolOp`: each value is rendered by
`write_value` (parenthesized per `boolop_value_decision`), and every value
except the last is followed by the operator token; an empty `values` list
raises `IndexError` from `node.values[-1]`. -/
def visit_boolop_values : Nat → boolop → List Ast → Vis
  | 0, _, _ => fuel_exhausted
  | fuel + 1, _, [] => raise_index_error
  | fuel + 1, op, [v] =>
      if boolop_value_decision op v then
        seq (write "(") (seq (visit fuel v) (write ")"))
      else visit fuel v
  | fuel + 1, op, v :: rest =>
      seq
        (if boolop_value_decision op v then
          seq (write "(") (seq (visit fuel v) (write ")"))
        else visit fuel v)
        (seq (visit_boolop_tag op) (visit_boolop_values fuel op rest))

/-- The `zip(node.ops, node.comparators)` loop of `visit_Compare` (the
comparator list drives the recursion). -/
def visit_compare_rest : Nat → List Ast → List cmpop → Vis
  | 0, _, _ => fuel_exhausted
  | fuel + 1, c :: cs, op :: ops =>
      seq (write " ")
        (seq (visit_cmpop_tag op)
          (seq (write " ") (seq (visit fuel c) (visit_compare_rest fuel cs ops))))
  | fuel + 1, _, _ => nop

/-- The comma-separated `zip(node.keys, node.values)` loop of
`visit_Dict`. -/
def visit_dict_items : Nat → List Ast → List Ast → Vis
  | 0, _, _ => fuel_exhausted
  | fuel + 1, k :: ks, v :: vs =>
      seq (visit fuel k)
        (seq (write ": ")
          (seq (visit fuel v)
            (match ks, vs with
             | _ :: _, _ :: _ => seq (write ", ") (visit_dict_items fuel ks vs)
             | _, _ => nop)))
  | fuel + 1, _, _ => nop

/-- `write_comma_separated_nodes(non_defaults)` in `visit_arguments`:
renders the first `k` elements of `args` with `", "` between consecutive
rendered items (the recursion walks the original field). -/
def visit_leading_args : Nat → List Ast → Nat → Vis
  | 0, _, _ => fuel_exhausted
  | fuel + 1, _, 0 => nop
  | fuel + 1, [], _ + 1 => nop
  | fuel + 1, a :: rest, k + 1 =>
      if k == 0 || rest.isEmpty then visit fuel a
      else seq (visit fuel a) (seq (write ", ") (visit_leading_args fuel rest k))

/-- The `zip(defaults, node.defaults)` loop of `visit_arguments`: skip the
first `k` elements of `args`, then render `argument=default` pairs — the
source writes no separator between consecutive pairs. -/
def visit_default_pairs : Nat → List Ast → Nat → List Ast → Vis
  | 0, _, _, _ => fuel_exhausted
  | fuel + 1, [], _, _ => nop
  | fuel + 1, _ :: rest, k + 1, ds => visit_default_pairs fuel rest k ds
  | fuel + 1, a :: rest, 0, d :: ds =>
      seq (visit fuel a)
        (seq (write "=") (seq (visit fuel d) (visit_default_pairs fuel rest 0 ds)))
  | fuel + 1, _ :: _, 0, [] => nop

/-- The comma-separated `zip(node.kwonlyargs, node.kw_defaults)` loop of
`visit_arguments`. -/
def visit_kwonly_pairs : Nat → List Ast → List (Option Ast) → Vis
  | 0, _, _ => fuel_exhausted
  | fuel + 1, a :: as_, d :: ds =>
      seq (visit fuel a)
        (seq
          (match d with
           | some df => seq (write "=") (visit fuel df)
           | none => nop)
          (match as_, ds with
           | _ :: _, _ :: _ => seq (write ", ") (visit_kwonly_pairs fuel as_ ds)
           | _, _ => nop))
  | fuel + 1, _, _ => nop

/-- The `' if '`-separated filter loop of `visit_comprehension` (only
called with a non-empty list). -/
def visit_comprehension_ifs : Nat → List Ast → Vis
  | 0, _ => fuel_exhausted
  | fuel + 1, [] => nop
  | fuel + 1, [f] => visit fuel f
  | fuel + 1, f :: rest =>
      seq (visit fuel f) (seq (write " if ") (visit_comprehension_ifs fuel rest))

end

/-! ## Fuel bounds

`ast_size` and its companions bound the fuel each member of the `visit`
family needs; the lemmas below establish that with at least this much
fuel the out-of-fuel arms are unreachable. -/

mutual

def ast_size : Ast → Nat
  | .Module body => 1 + list_size body
  | .FunctionDef _ args body decorator_list returns =>
      1 + ast_size args + list_size body + list_size decorator_list +
        opt_size returns
  | .ClassDef _ bases keywords starargs kwargs body decorator_list =>
      1 + list_size bases + list_size keywords + opt_size starargs +
        opt_size kwargs + list_size body + list_size decorator_list
  | .Return value => 1 + opt_size value
  | .Delete targets => 1 + list_size targets
  | .Assign targets value => 1 + list_size targets + ast_size value
  | .AugAssign target _ value => 1 + ast_size target + ast_size value
  | .For target iter body orelse =>
      1 + ast_size target + ast_size iter + list_size body +
        list_size orelse
  | .While test body orelse =>
      1 + ast_size test + list_size body + list_size orelse
  | .If test body orelse =>
      1 + ast_size test + list_size body + list_size orelse
  | .With items body => 1 + list_size items + list_size body
  | .Raise exc cause => 1 + opt_size exc + opt_size cause
  | .Try body handlers orelse finalbody =>
      1 + list_size body + list_size handlers + list_size orelse +
        list_size finalbody
  | .Assert test msg => 1 + ast_size test + opt_size msg
  | .Import names => 1 + list_size names
  | .ImportFrom _ names _ => 1 + list_size names
  | .Global _ => 1
  | .Nonlocal _ => 1
  | .Expr value => 1 + ast_size value
  | .Pass => 1
  | .Break => 1
  | .Continue => 1
  | .BoolOp _ values => 1 + list_size values
  | .BinOp left _ right => 1 + ast_size left + ast_size right
  | .UnaryOp _ operand => 1 + ast_size operand
  | .Lambda args body => 1 + ast_size args + ast_size body
  | .IfExp test body orelse =>
      1 + ast_size test + ast_size body + ast_size orelse
  | .Dict keys values => 1 + list_size keys + list_size values
  | .Set elts => 1 + list_size elts
  | .ListComp elt generators => 1 + ast_size elt + list_size generators
  | .SetComp elt generators => 1 + ast_size elt + list_size generators
  | .DictComp key value generators =>
      1 + ast_size key + ast_size value + list_size generators
  | .GeneratorExp elt generators => 1 + ast_size elt + list_size generators
  | .Yield value => 1 + opt_size value
  | .YieldFrom value => 1 + ast_size value
  | .Compare left _ comparators => 1 + ast_size left + list_size comparators
  | .Call func args keywords starargs kwargs =>
      1 + ast_size func + list_size args + list_size keywords +
        opt_size starargs + opt_size kwargs
  | .Num _ => 1
  | .Str _ => 1
  | .Bytes _ => 1
  | .Ellipsis => 1
  | .NameConstant _ => 1
  | .Attribute value _ => 1 + ast_size value
  | .Subscript value slice => 1 + ast_size value + ast_size slice
  | .Starred value => 1 + ast_size value
  | .Name _ => 1
  | .List elts => 1 + list_size elts
  | .Tuple elts => 1 + list_size elts
  | .Slice lower upper step =>
      1 + opt_size lower + opt_size upper + opt_size step
  | .Index value => 1 + ast_size value
  | .comprehension target iter ifs =>
      1 + ast_size target + ast_size iter + list_size ifs
  | .ExceptHandler type _ body => 1 + opt_size type + list_size body
  | .arguments args _ kwonlyargs kw_defaults _ defaults =>
      1 + 2 * list_size args + 2 * list_size defaults +
        list_size kwonlyargs + optlist_size kw_defaults
  | .arg _ annot => 1 + opt_size annot
  | .keyword _ value => 1 + ast_size value
  | .alias _ _ => 1
  | .withitem context_expr optional_vars =>
      1 + ast_size context_expr + opt_size optional_vars

def list_size : List Ast → Nat
  | [] => 1
  | x :: xs => 1 + ast_size x + list_size xs

def opt_size : Option Ast → Nat
  | none => 0
  | some a => ast_size a

def optlist_size : List (Option Ast) → Nat
  | [] => 1
  | none :: rest => 1 + optlist_size rest
  | some a :: rest => 1 + ast_size a + optlist_size rest

end

/-- `to_source`: render from a fresh writer (`indentation_level = 0`, at
start of line); the buffer contents are returned only when no exception
was raised (an exception propagates to the caller).  The fuel `ast_size
tree` is always sufficient for the recursion. -/
def to_source (tree : Ast) : Except PyErr String :=
  match visit (ast_size tree) tree ⟨0, true⟩ with
  | (s, _, none) => .ok s
  | (_, _, some e) => .error e

/-- An empty Python 3 argument list (`arguments([], None, [], [], None, [])`). -/
def no_arguments : Ast := .arguments [] none [] [] none []

/-! ### Sanity checks

Renderings match the round-trip expectations of the library's test suite
(`test_zweig.py`). -/

example : to_source (.Module [.Expr (.BinOp (.Num 1) .Add (.Num 1))]) =
    .ok "1 + 1\n" := rfl

example :
    to_source (.Module [.Expr (.BinOp (.Num 1) .Mult
      (.BinOp (.Num 1) .Add (.Num 1)))]) =
    .ok "1 * (1 + 1)\n" := rfl

example :
    to_source (.Module [.Expr (.BinOp (.BinOp (.Num 1) .Div (.Num 1))
      .Mult (.Num 1))]) =
    .ok "(1 / 1) * 1\n" := rfl

example :
    to_source (.Module [.Expr (.BinOp (.BinOp (.Num 1) .Mult (.Num 1))
      .Add (.Num 1))]) =
    .ok "1 * 1 + 1\n" := rfl

example :
    to_source (.Module [.Expr (.BinOp (.Num 1) .Pow
      (.UnaryOp .USub (.Num 1)))]) =
    .ok "1 ** -1\n" := rfl

example :
    to_source (.Module [.Expr (.BinOp (.UnaryOp .USub (.Num 1)) .Pow
      (.Num 1))]) =
    .ok "(-1) ** 1\n" := rfl

example :
    to_source (.Module [.Expr (.Attribute
      (.Attribute (.Name "foo") "bar") "baz")]) =
    .ok "foo.bar.baz\n" := rfl

example :
    to_source (.Module [.Expr (.Subscript
      (.Subscript (.Name "foo") (.Index (.Name "bar")))
      (.Index (.Name "baz")))]) =
    .ok "foo[bar][baz]\n" := rfl

example :
    to_source (.Module [.Expr (.Attribute
      (.BinOp (.Name "foo") .Add (.Name "bar")) "baz")]) =
    .ok "(foo + bar).baz\n" := rfl

example :
    to_source (.Module [.If (.Name "c") [.If (.Name "d") [.Pass] []] []]) =
    .ok "if c:\n    if d:\n        pass\n" := rfl

example :
    to_source (.Module [.FunctionDef "f" no_arguments [.Pass] [] none,
      .Pass]) =
    .ok "def f():\n    pass\n\npass\n" := rfl

example :
    to_source (.Module [.FunctionDef "defaults"
      (.arguments [.arg "foo" none, .arg "bar" none] none [] [] none
        [.Num 1])
      [.Pass] [] none]) =
    .ok "def defaults(foo, bar=1):\n    pass\n" := rfl

example :
    to_source (.Module [.ClassDef "Starargs" [] [] (some (.Name "args"))
      none [.Pass] []]) =
    .ok "class Starargs(*args):\n    pass\n" := rfl

example :
    to_source (.Module [.Expr (.BoolOp .And [.Name "foo",
      .BoolOp .Or [.Name "bar", .Name "baz"]])]) =
    .ok "foo and (bar or baz)\n" := rfl

example :
    to_source (.Module [.Expr (.Lambda no_arguments (.Name "None"))]) =
    .ok "lambda : None\n" := rfl

example :
    to_source (.Module [.Expr (.Dict [.Name "key"] [.Name "value"])]) =
    .ok "\x7bkey: value\x7d\n" := rfl

example :
    to_source (.Module [.Expr (.Subscript (.Name "foo")
      (.Slice none none (some (.Name "step"))))]) =
    .ok "foo[::step]\n" := rfl

example :
    to_source (.Module [.Try [.Pass]
      [.ExceptHandler (some (.Name "Something")) (some "AnotherThing")
        [.Pass]] [] []]) =
    .ok "try:\n    pass\nexcept Something as AnotherThing:\n    pass\n" := rfl

example :
    to_source (.Module [.With
      [.withitem (.Name "foo") (some (.Name "bar"))] [.Pass]]) =
    .ok "with foo as bar:\n    pass\n" := rfl

example :
    to_source (.Module [.For (.Name "x") (.Name "xs") [.Continue]
      [.Pass]]) =
    .ok "for x in xs:\n    continue\nelse:\n    pass\n" := rfl

example :
    to_source (.Module [.Assign [.Name "foo", .Name "bar"] (.Name "baz")]) =
    .ok "foo = bar = baz\n" := rfl

example :
    to_source (.Module [.ImportFrom none
      [.alias "foo" none] 1]) =
    .ok "from . import foo\n" := rfl

example :
    to_source (.Module [.Expr (.Call (.Name "func") []
      [.keyword "foo" (.Name "bar")] none none)]) =
    .ok "func(foo=bar)\n" := rfl

example :
    to_source (.Module [.Expr (.Compare (.Num 1) [.Lt] [.Num 1])]) =
    .ok "1 < 1\n" := rfl

example :
    to_source (.Module [.Expr (.ListComp (.Name "item")
      [.comprehension (.Name "item") (.Name "foo") [.Name "something"]])]) =
    .ok "[item for item in foo if something]\n" := rfl

example : to_source (.Module []) = .error .indexError := rfl

example : to_source (.Module [.Expr (.NameConstant .PyTrue)]) =
    .ok "\n" := rfl

example :
    to_source (.Module [.Expr (.BinOp (.Num 2) .Pow
      (.BinOp (.Num 3) .Pow (.Num 4)))]) =
    .ok "2 ** 3 ** 4\n" := rfl

example :
    to_source (.Module [.Expr (.Attribute
      (.Subscript (.Name "x") (.Index (.Num 0))) "y")]) =
    .ok "(x[0]).y\n" := rfl

example :
    to_source (.Module [.Expr (.Subscript
      (.Attribute (.Name "x") "y") (.Index (.Num 0)))]) =
    .ok "(x.y)[0]\n" := rfl

/-! ## Tier comparison

`tier_lt p c` holds when both classes are in the tower and the child's
tier is strictly tighter (a strictly larger index) than the parent's. -/

def tier_lt (p c : PyClass) : Bool :=
  match tier_index p, tier_index c with
  | some i, some j => i < j
  | _, _ => false

set_option maxRecDepth 100000 in
/-- A child whose tier is strictly tighter than the parent's is never in
the parent's `lower | equal` set, so it never requires parentheses. -/
theorem tier_lt_no_parens :
    ∀ p c : PyClass, tier_lt p c = true → _requires_parentheses p c = false := by
  decide

example : tier_index .Mult = some 11 := rfl
example : tier_index .Pow = some 13 := rfl
example : _requires_parentheses .Pow .Pow = true := rfl
example : _requires_parentheses .Mult .Pow = false := rfl
example : _requires_parentheses .Mult .USub = false := rfl
example : _requires_parentheses .Attribute .Subscript = true := rfl
example : _requires_parentheses .Subscript .Attribute = true := rfl

theorem tier_lt_num_false : ∀ p : PyClass, tier_lt p .Num = false := by
  decide

/-- C1 (counterexample): rendering `BinOp(2, Pow, BinOp(3, Pow, 4))` emits
`2 ** 3 ** 4` — the right operand, whose identity `Pow` lies in the same
tier as the exponentiation operator, does **not** receive parentheses
(the claimed rendering would be `2 ** (3 ** 4)`). -/
theorem pow_right_operand_not_parenthesized :
    to_source (.Module [.Expr (.BinOp (.Num 2) .Pow
      (.BinOp (.Num 3) .Pow (.Num 4)))]) = .ok "2 ** 3 ** 4\n" ∧
    binop_right_decision .Pow (.BinOp (.Num 3) .Pow (.Num 4)) = false ∧
    "2 ** 3 ** 4\n" ≠ "2 ** (3 ** 4)\n" := by
  refine ⟨rfl, rfl, ?_⟩
  decide

/-- C1 (amended): when the operator is `Pow`, the right-operand
parenthesization lookup substitutes the synthetic, slightly looser `Mult`
identity for the exponentiation node, with the effect that a right
operand whose identity lies in the `Pow` tier does **not** receive
parentheses (preserving right-associativity), while a `Pow`-tier left
operand does; for every other binary operator the right operand is
checked with the plain parent identity. -/
theorem binop_right_pow_substitution :
    (∀ right : Ast, binop_right_decision .Pow right =
      _requires_parentheses .Mult (_normalize right)) ∧
    (∀ (op : operator) (right : Ast), op ≠ .Pow →
      binop_right_decision op right =
        _requires_parentheses (operator_cls op) (_normalize right)) ∧
    (∀ right : Ast, _normalize right = .Pow →
      binop_right_decision .Pow right = false) ∧
    (∀ (py2 : Bool) (left : Ast), _normalize left = .Pow →
      binop_left_decision py2 left .Pow = true) := by
  refine ⟨fun right => rfl, ?_, ?_, ?_⟩
  · intro op right hop
    cases op <;> first | rfl | exact absurd rfl hop
  · intro right h
    show _requires_parentheses .Mult (_normalize right) = false
    rw [h]
    rfl
  · intro py2 left h
    unfold binop_left_decision
    rw [h]
    rfl

/-- C1 (witness): the amended facts at concrete inputs. -/
theorem binop_right_pow_substitution_witness :
    binop_right_decision .Add (.Num 1) =
      _requires_parentheses (operator_cls .Add) (_normalize (.Num 1)) ∧
    binop_right_decision .Pow (.BinOp (.Num 3) .Pow (.Num 4)) = false ∧
    binop_left_decision false (.BinOp (.Num 2) .Pow (.Num 3)) .Pow = true :=
  ⟨binop_right_pow_substitution.2.1 .Add (.Num 1) (by decide),
   binop_right_pow_substitution.2.2.1 (.BinOp (.Num 3) .Pow (.Num 4)) rfl,
   binop_right_pow_substitution.2.2.2 false (.BinOp (.Num 2) .Pow (.Num 3))
     rfl⟩

/-- C3 (counterexample): an attribute access whose base is a subscript is
rendered with parentheses around the base: `x[0].y` as a tree renders as
`(x[0]).y`, so attribute-on-subscript chains are parenthesized. -/
theorem attribute_on_subscript_parenthesized :
    to_source (.Module [.Expr (.Attribute
      (.Subscript (.Name "x") (.Index (.Num 0))) "y")]) =
      .ok "(x[0]).y\n" ∧
    attribute_value_decision (.Subscript (.Name "x") (.Index (.Num 0))) =
      true ∧
    subscript_value_decision (.Attribute (.Name "x") "y") = true :=
  ⟨rfl, rfl, rfl⟩

/-- C3 (amended): no parentheses are emitted around the base of an
attribute access whose base is itself an attribute, nor around the base
of a subscript whose base is itself a subscript; the cross cases
(attribute-on-subscript and subscript-on-attribute) **are**
parenthesized, since the base lies in the same precedence tier and only
the same-kind exemption applies. -/
theorem chain_parenthesization :
    (∀ v : Ast, is_attribute v = true → attribute_value_decision v = false) ∧
    (∀ v : Ast, is_subscript v = true → subscript_value_decision v = false) ∧
    (∀ (b s : Ast), attribute_value_decision (.Subscript b s) = true) ∧
    (∀ (b : Ast) (a : String),
      subscript_value_decision (.Attribute b a) = true) := by
  refine ⟨?_, ?_, fun b s => rfl, fun b a => rfl⟩
  · intro v h
    unfold attribute_value_decision
    rw [h]
    simp
  · intro v h
    unfold subscript_value_decision
    rw [h]
    simp

/-- C3 (witness): the same-kind exemptions at concrete inputs. -/
theorem chain_parenthesization_witness :
    attribute_value_decision (.Attribute (.Name "x") "y") = false ∧
    subscript_value_decision (.Subscript (.Name "x") (.Index (.Num 0))) =
      false :=
  ⟨chain_parenthesization.1 (.Attribute (.Name "x") "y") rfl,
   chain_parenthesization.2.1 (.Subscript (.Name "x") (.Index (.Num 0)))
     rfl⟩

/-- C4 (counterexample): under Python 3 (`PY2 = false`, the modelled
execution), a literal negative numeric left operand of a binary operator
is **not** parenthesized: `BinOp(Num(-1), Add, Num(1))` renders as
`-1 + 1`. -/
theorem negative_num_left_py3_unparenthesized :
    to_source (.Module [.Expr (.BinOp (.Num (-1)) .Add (.Num 1))]) =
      .ok "-1 + 1\n" ∧
    binop_left_decision PY2 (.Num (-1)) .Add = false :=
  ⟨rfl, rfl⟩

/-- C4 (amended): the special parenthesization of a literal negative
numeric left operand applies only when the `PY2` flag is set (running
under Python 2); under Python 3 the left operand of a binary operator is
parenthesized only per the precedence model, which never parenthesizes a
numeric literal. -/
theorem negative_num_left_py2_only :
    ∀ (n : Int) (op : operator), n < 0 →
      binop_left_decision true (.Num n) op = true ∧
      binop_left_decision false (.Num n) op = false := by
  intro n op hn
  have hreq : _requires_parentheses (operator_cls op) (_normalize (.Num n)) =
      false := by
    cases op <;> rfl
  have hneg : is_negative_num (.Num n) = true := by
    simp [is_negative_num, hn]
  constructor <;> simp [binop_left_decision, hreq, hneg]

/-- C4 (witness): the amended fact at a concrete input. -/
theorem negative_num_left_py2_only_witness :
    binop_left_decision true (.Num (-1)) .Pow = true ∧
    binop_left_decision false (.Num (-1)) .Pow = false :=
  negative_num_left_py2_only (-1) .Pow (by decide)

/-- C5: at every parenthesization call site of the renderer (boolean,
binary — both operand positions, including the `Mult` substitution for
`Pow` — unary and conditional expressions, and call/attribute/subscript
bases), a child whose precedence tier is strictly tighter than the
parent node's tier is never parenthesized. -/
theorem paren_minimality :
    ∀ (child : Ast) (py2 : Bool) (op2 : operator) (bop : boolop)
      (uop : unaryop),
      (tier_lt (operator_cls op2) (_normalize child) = true →
        binop_left_decision py2 child op2 = false) ∧
      (tier_lt (operator_cls op2) (_normalize child) = true →
        binop_right_decision op2 child = false) ∧
      (tier_lt (boolop_cls bop) (_normalize child) = true →
        boolop_value_decision bop child = false) ∧
      (tier_lt (unaryop_cls uop) (_normalize child) = true →
        unaryop_operand_decision uop child = false) ∧
      (tier_lt .IfExp (_normalize child) = true →
        ifexp_child_decision child = false) ∧
      (tier_lt .Call (_normalize child) = true →
        call_func_decision child = false) ∧
      (tier_lt .Attribute (_normalize child) = true →
        attribute_value_decision child = false) ∧
      (tier_lt .Subscript (_normalize child) = true →
        subscript_value_decision child = false) := by
  intro child py2 op2 bop uop
  refine ⟨?_, ?_, ?_, ?_, ?_, ?_, ?_, ?_⟩
  · intro h
    have hreq := tier_lt_no_parens _ _ h
    unfold binop_left_decision
    rw [hreq]
    simp only [Bool.false_or]
    cases hc : child <;> simp [is_negative_num]
    · -- child is a numeric literal: its class has no tier, contradicting `h`
      rw [hc] at h
      simp only [_normalize] at h
      rw [tier_lt_num_false] at h
      exact absurd h (by decide)
  · intro h
    by_cases hop : op2 = .Pow
    · subst hop
      show _requires_parentheses .Mult (_normalize child) = false
      apply tier_lt_no_parens
      unfold tier_lt at h ⊢
      have h13 : tier_index (operator_cls .Pow) = some 13 := rfl
      have h11 : tier_index PyClass.Mult = some 11 := rfl
      rw [h13] at h
      rw [h11]
      cases hcj : tier_index (_normalize child) with
      | none => rw [hcj] at h; exact absurd h (by decide)
      | some j =>
          rw [hcj] at h
          simp only [decide_eq_true_eq] at h ⊢
          omega
    · rw [binop_right_pow_substitution.2.1 op2 child hop]
      exact tier_lt_no_parens _ _ h
  · exact fun h => tier_lt_no_parens _ _ h
  · exact fun h => tier_lt_no_parens _ _ h
  · exact fun h => tier_lt_no_parens _ _ h
  · exact fun h => tier_lt_no_parens _ _ h
  · intro h
    unfold attribute_value_decision
    rw [tier_lt_no_parens _ _ h]
    rfl
  · intro h
    unfold subscript_value_decision
    rw [tier_lt_no_parens _ _ h]
    rfl

/-- C5 (witness): minimality at a concrete strictly-tighter child (a
list display, the tightest tier) and for a `Mult`-tier child under an
`Add`-tier parent. -/
theorem paren_minimality_witness :
    binop_left_decision false (.List []) .Add = false ∧
    binop_right_decision .Add (.List []) = false ∧
    boolop_value_decision .And (.List []) = false ∧
    unaryop_operand_decision .USub (.List []) = false ∧
    ifexp_child_decision (.List []) = false ∧
    call_func_decision (.List []) = false ∧
    attribute_value_decision (.List []) = false ∧
    subscript_value_decision (.List []) = false ∧
    binop_left_decision false (.BinOp (.Num 1) .Mult (.Num 1)) .Add =
      false :=
  ⟨(paren_minimality (.List []) false .Add .And .USub).1 (by decide),
   (paren_minimality (.List []) false .Add .And .USub).2.1 (by decide),
   (paren_minimality (.List []) false .Add .And .USub).2.2.1 (by decide),
   (paren_minimality (.List []) false .Add .And .USub).2.2.2.1 (by decide),
   (paren_minimality (.List []) false .Add .And .USub).2.2.2.2.1
     (by decide),
   (paren_minimality (.List []) false .Add .And .USub).2.2.2.2.2.1
     (by decide),
   (paren_minimality (.List []) false .Add .And .USub).2.2.2.2.2.2.1
     (by decide),
   (paren_minimality (.List []) false .Add .And .USub).2.2.2.2.2.2.2
     (by decide),
   (paren_minimality (.BinOp (.Num 1) .Mult (.Num 1)) false .Add .And
     .USub).1 (by decide)⟩

/-- C8: `indented` increments the indentation depth by one on entry, runs
the body at the incremented depth, and decrements on every exit path —
the decrement is applied to the result state whether or not the body
raised, so a level-preserving body leaves the depth it found. -/
theorem indented_restores_level :
    (∀ (body : Vis) (w : WriterState),
      indented body w =
        (let r := body { w with indentation_level := w.indentation_level + 1 }
         (r.1,
          { r.2.1 with indentation_level := r.2.1.indentation_level - 1 },
          r.2.2))) ∧
    (∀ (body : Vis) (w : WriterState),
      (∀ v, ((body v).2.1).indentation_level = v.indentation_level) →
      ((indented body w).2.1).indentation_level = w.indentation_level) := by
  constructor
  · intro body w
    rfl
  · intro body w h
    rcases hb : body { w with indentation_level := w.indentation_level + 1 }
      with ⟨s, w1, r⟩
    have hw1 : w1.indentation_level = w.indentation_level + 1 := by
      have h2 := h { w with indentation_level := w.indentation_level + 1 }
      rw [hb] at h2
      exact h2
    unfold indented
    rw [hb]
    simp [hw1]

/-- C8 (witness): the depth is restored even when the body raises (here
the body raises `IndexError` immediately). -/
theorem indented_restores_level_witness :
    ((indented raise_index_error ⟨2, true⟩).2.1).indentation_level = 2 ∧
    (indented raise_index_error ⟨2, true⟩).2.2 = some .indexError :=
  ⟨indented_restores_level.2 raise_index_error ⟨2, true⟩ (fun v => rfl),
   rfl⟩

/-! ## Line structure of emitted text

Character-level helpers for reasoning about the lines of the writer's
output: `split_nl` splits a character list at every `'\n'` (the final
chunk is the unterminated remainder, empty when the text ends in a
newline). -/

def no_nl (s : String) : Bool := s.data.all (fun c => c != '\n')

def split_nl : List Char → List (List Char)
  | [] => [[]]
  | c :: rest =>
      match split_nl rest with
      | [] => []
      | l :: ls => if c = '\n' then [] :: l :: ls else (c :: l) :: ls

def ends_nl (s : String) : Bool :=
  match s.data.getLast? with
  | some c => c == '\n'
  | none => false

def ind_chars (lvl : Nat) : List Char := List.replicate (4 * lvl) ' '

/-- A line is acceptable at depth `lvl` when it is blank or carries the
`lvl`-unit indentation prefix. -/
def line_ok (lvl : Nat) (l : List Char) : Bool :=
  l.isEmpty || (ind_chars lvl).isPrefixOf l

def lines_ok (lvl : Nat) (s : String) : Bool :=
  (split_nl s.data).all (line_ok lvl)

theorem str_append_eq_empty_iff (a b : String) :
    a ++ b = "" ↔ a = "" ∧ b = "" := by
  constructor
  · intro h
    have hd := congrArg String.data h
    rw [String.data_append] at hd
    have h2 := List.append_eq_nil.mp hd
    exact ⟨String.ext h2.1, String.ext h2.2⟩
  · rintro ⟨rfl, rfl⟩
    rfl

theorem str_append_isEmpty (a b : String) :
    (a ++ b).isEmpty = (a.isEmpty && b.isEmpty) := by
  by_cases ha : a = ""
  · subst ha
    rw [String.empty_append]
    rfl
  · have h1 : a.isEmpty = false := by
      rcases h : a.isEmpty with _ | _
      · rfl
      · exact absurd ((String.isEmpty_iff a).mp h) ha
    have h2 : (a ++ b).isEmpty = false := by
      rcases h : (a ++ b).isEmpty with _ | _
      · rfl
      · have h3 := (String.isEmpty_iff _).mp h
        exact absurd ((str_append_eq_empty_iff a b).mp h3).1 ha
    rw [h1, h2, Bool.false_and]

theorem str_data_eq_nil_iff (s : String) : s.data = [] ↔ s = "" :=
  ⟨fun h => String.ext h, fun h => by subst h; rfl⟩

theorem no_nl_append (a b : String) :
    no_nl (a ++ b) = (no_nl a && no_nl b) := by
  unfold no_nl
  rw [String.data_append, List.all_append]

theorem split_nl_cons (c : Char) (rest : List Char) :
    split_nl (c :: rest) =
      match split_nl rest with
      | [] => []
      | l :: ls => if c = '\n' then [] :: l :: ls else (c :: l) :: ls := rfl

theorem split_nl_ne_nil (l : List Char) : split_nl l ≠ [] := by
  induction l with
  | nil => simp [split_nl]
  | cons c rest ih =>
      rw [split_nl_cons]
      rcases h : split_nl rest with _ | ⟨a, as⟩
      · exact absurd h ih
      · by_cases hc : c = '\n' <;> simp [hc]

theorem split_nl_single (l : List Char)
    (h : l.all (fun c => c != '\n') = true) : split_nl l = [l] := by
  induction l with
  | nil => rfl
  | cons c rest ih =>
      simp only [List.all_cons, Bool.and_eq_true] at h
      rw [split_nl_cons, ih h.2]
      have hc : ¬ c = '\n' := by simpa using h.1
      simp [hc]

theorem split_nl_ends (z : List Char) (h : z.getLast? = some '\n') :
    ∃ a as, split_nl z = a :: as ∧ as ≠ [] := by
  induction z with
  | nil => simp at h
  | cons c rest ih =>
      cases hr : rest with
      | nil =>
          subst hr
          have hc : c = '\n' := by simpa using h
          subst hc
          exact ⟨[], [[]], rfl, by simp⟩
      | cons d rest2 =>
          subst hr
          rw [List.getLast?_cons_cons] at h
          obtain ⟨a, as, hsp, hne⟩ := ih h
          rw [split_nl_cons, hsp]
          by_cases hc : c = '\n'
          · exact ⟨[], a :: as, by simp [hc], by simp⟩
          · exact ⟨c :: a, as, by simp [hc], hne⟩

theorem split_nl_append (x y : List Char) (h : x.getLast? = some '\n') :
    split_nl (x ++ y) = (split_nl x).dropLast ++ split_nl y := by
  induction x with
  | nil => simp at h
  | cons c rest ih =>
      cases hr : rest with
      | nil =>
          subst hr
          have hc : c = '\n' := by simpa using h
          subst hc
          simp only [List.cons_append, List.nil_append]
          rcases hy : split_nl y with _ | ⟨b, bs⟩
          · exact absurd hy (split_nl_ne_nil y)
          · rw [split_nl_cons, hy]
            simp [split_nl]
      | cons d rest2 =>
          subst hr
          rw [List.getLast?_cons_cons] at h
          obtain ⟨a, as, hsp, hne⟩ := split_nl_ends _ h
          have ih2 := ih h
          rw [List.cons_append, split_nl_cons, ih2, hsp, split_nl_cons, hsp]
          rcases as with _ | ⟨a2, as2⟩
          · exact absurd rfl hne
          · by_cases hc : c = '\n' <;> simp [hc, List.dropLast]

theorem all_dropLast {α : Type} (p : α → Bool) (l : List α)
    (h : l.all p = true) : l.dropLast.all p = true := by
  rw [List.all_eq_true] at h ⊢
  intro x hx
  exact h x (List.dropLast_subset l hx)

theorem isPrefixOf_self_append (u v : List Char) :
    u.isPrefixOf (u ++ v) = true := by
  rw [List.isPrefixOf_iff_prefix]
  exact List.prefix_append u v

theorem ind_chars_mono {l l' : Nat} (h : l ≤ l') (line : List Char)
    (hp : (ind_chars l').isPrefixOf line = true) :
    (ind_chars l).isPrefixOf line = true := by
  rw [List.isPrefixOf_iff_prefix] at hp ⊢
  have h1 : ind_chars l <+: ind_chars l' := by
    refine ⟨List.replicate (4 * l' - 4 * l) ' ', ?_⟩
    unfold ind_chars
    rw [← List.replicate_add]
    congr 1
    omega
  exact h1.trans hp

theorem line_ok_mono {l l' : Nat} (h : l ≤ l') (line : List Char)
    (hp : line_ok l' line = true) : line_ok l line = true := by
  unfold line_ok at hp ⊢
  rcases Bool.or_eq_true_iff.mp hp with h1 | h1
  · rw [h1]
    rfl
  · rw [ind_chars_mono h line h1]
    simp

theorem lines_ok_mono {l l' : Nat} (h : l ≤ l') (s : String)
    (hp : lines_ok l' s = true) : lines_ok l s = true := by
  unfold lines_ok at hp ⊢
  rw [List.all_eq_true] at hp ⊢
  exact fun x hx => line_ok_mono h x (hp x hx)

theorem ends_nl_append (a b : String) (h : ends_nl b = true) :
    ends_nl (a ++ b) = true := by
  unfold ends_nl at h ⊢
  rw [String.data_append, List.getLast?_append]
  rcases hg : b.data.getLast? with _ | c
  · rw [hg] at h
    simp at h
  · rw [hg] at h
    simpa [Option.or] using h

theorem str_ne_empty_of_ends_nl (s : String) (h : ends_nl s = true) :
    s ≠ "" := by
  intro he
  subst he
  simp [ends_nl] at h

theorem lines_ok_append (lvl : Nat) (a b : String)
    (hub : a = "" ∨ ends_nl a = true)
    (ha : lines_ok lvl a = true) (hb : lines_ok lvl b = true) :
    lines_ok lvl (a ++ b) = true := by
  rcases hub with h | h
  · subst h
    rw [String.empty_append]
    exact hb
  · unfold lines_ok at ha hb ⊢
    rw [String.data_append]
    have hd : a.data.getLast? = some '\n' := by
      unfold ends_nl at h
      rcases hg : a.data.getLast? with _ | c
      · rw [hg] at h
        simp at h
      · rw [hg] at h
        simp at h
        rw [h]
    rw [split_nl_append _ _ hd, List.all_append]
    rw [all_dropLast _ _ ha, hb]
    rfl

theorem split_nl_line_append (f rest : List Char)
    (hf : f.all (fun c => c != '\n') = true) :
    split_nl (f ++ '\n' :: rest) = f :: split_nl rest := by
  induction f with
  | nil =>
      rw [List.nil_append, split_nl_cons]
      rcases h : split_nl rest with _ | ⟨a, as⟩
      · exact absurd h (split_nl_ne_nil rest)
      · simp
  | cons c cs ih =>
      simp only [List.all_cons, Bool.and_eq_true] at hf
      rw [List.cons_append, split_nl_cons, ih hf.2]
      have hc : ¬ c = '\n' := by simpa using hf.1
      simp [hc]

theorem no_nl_indentation (lvl : Nat) :
    no_nl (indentation_text lvl) = true := by
  unfold no_nl indentation_text
  rw [List.all_eq_true]
  intro c hc
  have := List.eq_of_mem_replicate hc
  subst this
  rfl

/-! ## Canonical behavior of writer actions

Three shapes cover every computation of the `visit` family:

* `emits_inline v`: `v` writes newline-free text onto the current line
  (expression renderers).  The text `raw` written is indentation-prefixed
  iff the writer was at a line start and something got written, and the
  `newline` flag survives only if nothing was written.
* `emits_block v` / `emits_block0 v`: starting at a line start, `v`
  emits complete, `'\n'`-terminated lines each blank or indented at
  least to the current level, and finishes at a line start with the same
  level (`block0` also allows emitting nothing).
* `emits_line_rest v`: `v` finishes the current line (writing newline-free
  `h`, then the terminator) and then emits block lines `u` — the shape of
  a compound-statement rendering after its leading keyword. -/

def emits_inline (v : Vis) : Prop :=
  ∀ lvl nl, ∃ raw : String, no_nl raw = true ∧
    v ⟨lvl, nl⟩ =
      ((if nl && !raw.isEmpty then indentation_text lvl else "") ++ raw,
       ⟨lvl, nl && raw.isEmpty⟩, none)

def emits_block (v : Vis) : Prop :=
  ∀ lvl, ∃ t : String,
    v ⟨lvl, true⟩ = (t, ⟨lvl, true⟩, none) ∧
    ends_nl t = true ∧ lines_ok lvl t = true

def emits_block0 (v : Vis) : Prop :=
  ∀ lvl, ∃ t : String,
    v ⟨lvl, true⟩ = (t, ⟨lvl, true⟩, none) ∧
    (t = "" ∨ ends_nl t = true) ∧ lines_ok lvl t = true

def emits_line_rest (v : Vis) : Prop :=
  ∀ lvl nl, ∃ h u : String,
    no_nl h = true ∧ (u = "" ∨ ends_nl u = true) ∧ lines_ok lvl u = true ∧
    v ⟨lvl, nl⟩ =
      ((if nl && !h.isEmpty then indentation_text lvl else "") ++
        (h ++ ("\n" ++ u)),
       ⟨lvl, true⟩, none)

/-- Computation rule for `seq` when the first action succeeds. -/
theorem seq_eq {a b : Vis} {w w1 w2 : WriterState} {s t : String}
    {r : Option PyErr} (h1 : a w = (s, w1, none))
    (h2 : b w1 = (t, w2, r)) : seq a b w = (s ++ t, w2, r) := by
  unfold seq
  rw [h1]
  dsimp only
  rw [h2]

/-- Computation rule for `seq` when the first action raises. -/
theorem seq_err {a b : Vis} {w w1 : WriterState} {s : String} {e : PyErr}
    (h1 : a w = (s, w1, some e)) : seq a b w = (s, w1, some e) := by
  unfold seq
  rw [h1]

theorem str_isEmpty_false {s : String} (h : s ≠ "") :
    s.isEmpty = false := by
  rcases hr : s.isEmpty with _ | _
  · rfl
  · exact absurd ((String.isEmpty_iff s).mp hr) h

theorem emits_inline_nop : emits_inline nop := by
  intro lvl nl
  refine ⟨"", rfl, ?_⟩
  cases nl <;> rfl

theorem emits_inline_write (s : String) (h1 : s.isEmpty = false)
    (h2 : no_nl s = true) : emits_inline (write s) := by
  intro lvl nl
  refine ⟨s, h2, ?_⟩
  rw [h1]
  cases nl <;> rfl

theorem emits_inline_seq {a b : Vis} (ha : emits_inline a)
    (hb : emits_inline b) : emits_inline (seq a b) := by
  intro lvl nl
  obtain ⟨ra, hra, hea⟩ := ha lvl nl
  obtain ⟨rb, hrb, heb⟩ := hb lvl (nl && ra.isEmpty)
  refine ⟨ra ++ rb, ?_, ?_⟩
  · rw [no_nl_append, hra, hrb]
    rfl
  · rw [seq_eq hea heb]
    by_cases he : ra = ""
    · subst he
      simp only [String.empty_append]
      cases nl <;> rfl
    · have h1 : ra.isEmpty = false := str_isEmpty_false he
      have h2 : (ra ++ rb).isEmpty = false := by
        rw [str_append_isEmpty, h1, Bool.false_and]
      rw [h1, h2]
      cases nl
      · rw [String.append_assoc]
        rfl
      · rw [String.append_assoc]
        rfl

theorem emits_line_rest_newline : emits_line_rest write_newline := by
  intro lvl nl
  refine ⟨"", "", rfl, Or.inl rfl, rfl, ?_⟩
  cases nl <;>
    · show ("\n", _, none) = _
      rw [String.append_empty]
      rfl

theorem emits_line_rest_seq_newline {X : Vis} (hX : emits_block0 X) :
    emits_line_rest (seq write_newline X) := by
  intro lvl nl
  obtain ⟨t, he, hend, hlines⟩ := hX lvl
  refine ⟨"", t, rfl, hend, hlines, ?_⟩
  have h1 : write_newline ⟨lvl, nl⟩ = ("\n", ⟨lvl, true⟩, none) := rfl
  rw [seq_eq h1 he]
  cases nl <;> rfl

theorem emits_line_rest_prepend {a b : Vis} (ha : emits_inline a)
    (hb : emits_line_rest b) : emits_line_rest (seq a b) := by
  intro lvl nl
  obtain ⟨ra, hra, hea⟩ := ha lvl nl
  obtain ⟨h, u, hh, hu, hl, heb⟩ := hb lvl (nl && ra.isEmpty)
  refine ⟨ra ++ h, u, ?_, hu, hl, ?_⟩
  · rw [no_nl_append, hra, hh]
    rfl
  · rw [seq_eq hea heb]
    by_cases he : ra = ""
    · subst he
      simp only [String.empty_append]
      cases nl <;> rfl
    · have h1 : ra.isEmpty = false := str_isEmpty_false he
      have h2 : (ra ++ h).isEmpty = false := by
        rw [str_append_isEmpty, h1, Bool.false_and]
      rw [h1, h2]
      cases nl <;>
        · simp only [String.append_assoc]
          rfl

theorem emits_block_of_line_rest {v : Vis} (h : emits_line_rest v) :
    emits_block v := by
  intro lvl
  obtain ⟨hd, u, hh, hu, hl, he⟩ := h lvl true
  refine ⟨_, he, ?_, ?_⟩
  · have h0 : ends_nl ("\n" ++ u) = true := by
      rcases hu with h | h
      · subst h
        rw [String.append_empty]
        rfl
      · exact ends_nl_append _ _ h
    exact ends_nl_append _ _ (ends_nl_append _ _ h0)
  · unfold lines_ok
    have hT : ((if true && !hd.isEmpty then indentation_text lvl
        else "") ++ (hd ++ ("\n" ++ u))).data =
        ((if true && !hd.isEmpty then indentation_text lvl
          else "").data ++ hd.data) ++ ('\n' :: u.data) := by
      rw [String.data_append, String.data_append, String.data_append]
      rw [List.append_assoc]
      rfl
    rw [hT]
    have hfnl : (((if true && !hd.isEmpty then indentation_text lvl
        else "").data ++ hd.data)).all (fun c => c != '\n') = true := by
      rw [List.all_append, Bool.and_eq_true]
      refine ⟨?_, hh⟩
      split
      · exact no_nl_indentation lvl
      · rfl
    rw [split_nl_line_append _ _ hfnl, List.all_cons, Bool.and_eq_true]
    refine ⟨?_, hl⟩
    by_cases hde : hd = ""
    · subst hde
      simp only [String.isEmpty_iff]
      rfl
    · have h1 : hd.isEmpty = false := str_isEmpty_false hde
      rw [h1]
      unfold line_ok
      have hx : ((if (true && !false) = true then indentation_text lvl
          else "").data ++ hd.data) = ind_chars lvl ++ hd.data := rfl
      rw [hx, isPrefixOf_self_append]
      simp

theorem emits_block0_of_block {v : Vis} (h : emits_block v) :
    emits_block0 v := by
  intro lvl
  obtain ⟨t, he, hend, hl⟩ := h lvl
  exact ⟨t, he, Or.inr hend, hl⟩

theorem emits_block0_nop : emits_block0 nop := by
  intro lvl
  exact ⟨"", rfl, Or.inl rfl, rfl⟩

theorem emits_block_newline : emits_block write_newline := by
  intro lvl
  exact ⟨"\n", rfl, rfl, rfl⟩

theorem emits_block0_seq {a b : Vis} (ha : emits_block0 a)
    (hb : emits_block0 b) : emits_block0 (seq a b) := by
  intro lvl
  obtain ⟨t1, he1, hend1, hl1⟩ := ha lvl
  obtain ⟨t2, he2, hend2, hl2⟩ := hb lvl
  refine ⟨t1 ++ t2, seq_eq he1 he2, ?_,
    lines_ok_append lvl t1 t2 hend1 hl1 hl2⟩
  rcases hend2 with h | h
  · subst h
    rw [String.append_empty]
    exact hend1
  · exact Or.inr (ends_nl_append _ _ h)

theorem emits_block_seq_right {a b : Vis} (ha : emits_block0 a)
    (hb : emits_block b) : emits_block (seq a b) := by
  intro lvl
  obtain ⟨t1, he1, hend1, hl1⟩ := ha lvl
  obtain ⟨t2, he2, hend2, hl2⟩ := hb lvl
  exact ⟨t1 ++ t2, seq_eq he1 he2, ends_nl_append _ _ hend2,
    lines_ok_append lvl t1 t2 hend1 hl1 hl2⟩

theorem emits_block_seq_left {a b : Vis} (ha : emits_block a)
    (hb : emits_block0 b) : emits_block (seq a b) := by
  intro lvl
  obtain ⟨t1, he1, hend1, hl1⟩ := ha lvl
  obtain ⟨t2, he2, hend2, hl2⟩ := hb lvl
  refine ⟨t1 ++ t2, seq_eq he1 he2, ?_,
    lines_ok_append lvl t1 t2 (Or.inr hend1) hl1 hl2⟩
  rcases hend2 with h | h
  · subst h
    rw [String.append_empty]
    exact hend1
  · exact ends_nl_append _ _ h

theorem emits_block_seq {a b : Vis} (ha : emits_block a)
    (hb : emits_block b) : emits_block (seq a b) :=
  emits_block_seq_right (emits_block0_of_block ha) hb

theorem emits_block_indented {v : Vis} (h : emits_block v) :
    emits_block (indented v) := by
  intro lvl
  obtain ⟨t, he, hend, hl⟩ := h (lvl + 1)
  refine ⟨t, ?_, hend, lines_ok_mono (Nat.le_succ lvl) t hl⟩
  unfold indented
  rw [he]
  dsimp only
  simp

theorem emits_block0_indented {v : Vis} (h : emits_block0 v) :
    emits_block0 (indented v) := by
  intro lvl
  obtain ⟨t, he, hend, hl⟩ := h (lvl + 1)
  refine ⟨t, ?_, hend, lines_ok_mono (Nat.le_succ lvl) t hl⟩
  unfold indented
  rw [he]
  dsimp only
  simp

theorem emits_block_write_line (s : String) (h1 : s.isEmpty = false)
    (h2 : no_nl s = true) : emits_block (write_line s) :=
  emits_block_of_line_rest
    (emits_line_rest_prepend (emits_inline_write s h1 h2)
      emits_line_rest_newline)

theorem emits_block_writing_statement {v : Vis} (h : emits_inline v) :
    emits_block (writing_statement v) :=
  emits_block_of_line_rest
    (emits_line_rest_prepend h emits_line_rest_newline)

theorem emits_inline_ite (c : Bool) {a b : Vis} (ha : emits_inline a)
    (hb : emits_inline b) : emits_inline (if c then a else b) := by
  cases c
  · exact hb
  · exact ha

/-- A parenthesization branch (`write '('; visit; write ')'` versus a bare
visit) is inline whenever the wrapped action is. -/
theorem emits_inline_wrap (d : Bool) {v : Vis} (h : emits_inline v) :
    emits_inline
      (if d then seq (write "(") (seq v (write ")")) else v) := by
  cases d
  · exact h
  · exact emits_inline_seq (emits_inline_write "(" rfl rfl)
      (emits_inline_seq h (emits_inline_write ")" rfl rfl))

theorem emits_inline_operator_tag (op : operator) :
    emits_inline (visit_operator_tag op) := by
  cases op <;> exact emits_inline_write _ rfl rfl

theorem emits_inline_boolop_tag (op : boolop) :
    emits_inline (visit_boolop_tag op) := by
  cases op <;> exact emits_inline_write _ rfl rfl

theorem emits_inline_unaryop_tag (op : unaryop) :
    emits_inline (visit_unaryop_tag op) := by
  cases op <;> exact emits_inline_write _ rfl rfl

theorem emits_inline_cmpop_tag (op : cmpop) :
    emits_inline (visit_cmpop_tag op) := by
  cases op <;> exact emits_inline_write _ rfl rfl

/-- Identifier hygiene for the induction: non-empty and newline-free. -/
def ident_ok (s : String) : Bool := !s.isEmpty && no_nl s

theorem emits_inline_comma_ids (l : List String)
    (h : l.all ident_ok = true) :
    emits_inline (write_comma_separated_identifiers l) := by
  induction l with
  | nil => exact emits_inline_nop
  | cons n rest ih =>
      rw [List.all_cons, Bool.and_eq_true] at h
      have hn1 : n.isEmpty = false := by
        have := h.1
        unfold ident_ok at this
        rw [Bool.and_eq_true] at this
        rcases hr : n.isEmpty with _ | _
        · rfl
        · rw [hr] at this
          simp at this
      have hn2 : no_nl n = true := by
        have := h.1
        unfold ident_ok at this
        rw [Bool.and_eq_true] at this
        exact this.2
      cases rest with
      | nil => exact emits_inline_write n hn1 hn2
      | cons m rest2 =>
          exact emits_inline_seq (emits_inline_write n hn1 hn2)
            (emits_inline_seq (emits_inline_write ", " rfl rfl)
              (ih h.2))

theorem str_isEmpty_false_of_data {s : String} (h : s.data ≠ []) :
    s.isEmpty = false :=
  str_isEmpty_false (fun he => h (by rw [he]))

theorem digit_char_ne_nl (n : Nat) : (digit_char n != '\n') = true := by
  unfold digit_char
  split <;> rfl

theorem nat_digits_no_nl (fuel n : Nat) :
    (nat_digits fuel n).all (fun c => c != '\n') = true := by
  induction fuel generalizing n with
  | zero => rfl
  | succ fuel ih =>
      unfold nat_digits
      split
      · simp [digit_char_ne_nl]
      · rw [List.all_append]
        rw [ih (n / 10)]
        simp [digit_char_ne_nl]

theorem nat_digits_ne_nil (fuel n : Nat) : nat_digits (fuel + 1) n ≠ [] := by
  unfold nat_digits
  split
  · simp
  · simp

theorem int_repr_isEmpty (i : Int) : (int_repr i).isEmpty = false := by
  cases i with
  | ofNat n =>
      exact str_isEmpty_false_of_data (nat_digits_ne_nil n n)
  | negSucc n =>
      apply str_isEmpty_false_of_data
      show ("-" ++ nat_repr (n + 1)).data ≠ []
      rw [String.data_append]
      simp

theorem int_repr_no_nl (i : Int) : no_nl (int_repr i) = true := by
  cases i with
  | ofNat n => exact nat_digits_no_nl (n + 1) n
  | negSucc n =>
      show no_nl ("-" ++ nat_repr (n + 1)) = true
      rw [no_nl_append]
      have h2 : no_nl (nat_repr (n + 1)) = true :=
        nat_digits_no_nl (n + 2) (n + 1)
      rw [h2]
      rfl

theorem str_escape_no_nl (l : List Char) :
    (str_escape l).all (fun c => c != '\n') = true := by
  induction l with
  | nil => rfl
  | cons c rest ih =>
      unfold str_escape
      rw [List.all_append, ih, Bool.and_true]
      by_cases h1 : c = '\\'
      · simp [h1]
      · by_cases h2 : c = '\''
        · simp [h1, h2]
        · by_cases h3 : c = '\n'
          · simp [h1, h2, h3]
          · simp [h1, h2, h3]

theorem str_repr_isEmpty (s : String) : (str_repr s).isEmpty = false := by
  apply str_isEmpty_false_of_data
  unfold str_repr
  rw [String.data_append, String.data_append]
  simp

theorem str_repr_no_nl (s : String) : no_nl (str_repr s) = true := by
  unfold str_repr
  rw [no_nl_append, no_nl_append]
  have h1 : no_nl (String.mk (str_escape s.data)) = true :=
    str_escape_no_nl s.data
  rw [h1]
  rfl

theorem bytes_repr_isEmpty (s : String) :
    (bytes_repr s).isEmpty = false := by
  unfold bytes_repr
  rw [str_append_isEmpty]
  rfl

theorem bytes_repr_no_nl (s : String) : no_nl (bytes_repr s) = true := by
  unfold bytes_repr
  rw [no_nl_append, str_repr_no_nl]
  rfl

/-! ## Well-formed trees

`is_block_kind` classifies node kinds by how their renderer writes:
statement kinds (and exception handlers) emit complete lines; all other
kinds emit inline text.  `wf` is the hygiene assumption of the layout
theorems: identifier-position strings are non-empty and newline-free,
statement-list fields hold statement-kind trees and are non-empty where
the renderer indexes them unconditionally, expression-position fields
hold inline-kind trees, and `BoolOp` values are non-empty. -/

def is_block_kind : Ast → Bool
  | .Module _ => true
  | .FunctionDef _ _ _ _ _ => true
  | .ClassDef _ _ _ _ _ _ _ => true
  | .Return _ => true
  | .Delete _ => true
  | .Assign _ _ => true
  | .AugAssign _ _ _ => true
  | .For _ _ _ _ => true
  | .While _ _ _ => true
  | .If _ _ _ => true
  | .With _ _ => true
  | .Raise _ _ => true
  | .Try _ _ _ _ => true
  | .Assert _ _ => true
  | .Import _ => true
  | .ImportFrom _ _ _ => true
  | .Global _ => true
  | .Nonlocal _ => true
  | .Expr _ => true
  | .Pass => true
  | .Break => true
  | .Continue => true
  | .ExceptHandler _ _ _ => true
  | _ => false

def opt_ident_ok : Option String → Bool
  | none => true
  | some s => ident_ok s

/-- Hygiene for `vararg`/`kwarg` fields: an empty string is allowed (the
truthiness test skips it), a non-empty one is written verbatim so it must
be newline-free. -/
def opt_vararg_ok : Option String → Bool
  | none => true
  | some v => no_nl v

mutual

def wf : Ast → Bool
  | .Module body => wf_stmts body
  | .FunctionDef name args body decorator_list returns =>
      ident_ok name && (!is_block_kind args && wf args) && wf_stmts body &&
        wf_exprs decorator_list && wf_opt returns
  | .ClassDef name bases keywords starargs kwargs body decorator_list =>
      ident_ok name && wf_exprs bases && wf_exprs keywords &&
        wf_opt starargs && wf_opt kwargs && wf_stmts body &&
        wf_exprs decorator_list
  | .Return value => wf_opt value
  | .Delete targets => wf_exprs targets
  | .Assign targets value =>
      wf_exprs targets && (!is_block_kind value && wf value)
  | .AugAssign target _ value =>
      (!is_block_kind target && wf target) &&
        (!is_block_kind value && wf value)
  | .For target iter body orelse =>
      (!is_block_kind target && wf target) &&
        (!is_block_kind iter && wf iter) && wf_stmts body &&
        wf_opt_stmts orelse
  | .While test body orelse =>
      (!is_block_kind test && wf test) && wf_stmts body &&
        wf_opt_stmts orelse
  | .If test body orelse =>
      (!is_block_kind test && wf test) && wf_stmts body &&
        wf_opt_stmts orelse
  | .With items body => wf_exprs items && wf_stmts body
  | .Raise exc cause => wf_opt exc && wf_opt cause
  | .Try body handlers orelse finalbody =>
      wf_stmts body && wf_opt_stmts handlers && wf_opt_stmts orelse &&
        wf_opt_stmts finalbody
  | .Assert test msg => (!is_block_kind test && wf test) && wf_opt msg
  | .Import names => wf_exprs names
  | .ImportFrom module names _ => opt_ident_ok module && wf_exprs names
  | .Global names => names.all ident_ok
  | .Nonlocal names => names.all ident_ok
  | .Expr value => !is_block_kind value && wf value
  | .Pass => true
  | .Break => true
  | .Continue => true
  | .BoolOp _ values => !values.isEmpty && wf_exprs values
  | .BinOp left _ right =>
      (!is_block_kind left && wf left) && (!is_block_kind right && wf right)
  | .UnaryOp _ operand => !is_block_kind operand && wf operand
  | .Lambda args body =>
      (!is_block_kind args && wf args) && (!is_block_kind body && wf body)
  | .IfExp test body orelse =>
      (!is_block_kind test && wf test) && (!is_block_kind body && wf body) &&
        (!is_block_kind orelse && wf orelse)
  | .Dict keys values => wf_exprs keys && wf_exprs values
  | .Set elts => wf_exprs elts
  | .ListComp elt generators =>
      (!is_block_kind elt && wf elt) && wf_exprs generators
  | .SetComp elt generators =>
      (!is_block_kind elt && wf elt) && wf_exprs generators
  | .DictComp key value generators =>
      (!is_block_kind key && wf key) && (!is_block_kind value && wf value) &&
        wf_exprs generators
  | .GeneratorExp elt generators =>
      (!is_block_kind elt && wf elt) && wf_exprs generators
  | .Yield value => wf_opt value
  | .YieldFrom value => !is_block_kind value && wf value
  | .Compare left _ comparators =>
      (!is_block_kind left && wf left) && wf_exprs comparators
  | .Call func args keywords starargs kwargs =>
      (!is_block_kind func && wf func) && wf_exprs args &&
        wf_exprs keywords && wf_opt starargs && wf_opt kwargs
  | .Num _ => true
  | .Str _ => true
  | .Bytes _ => true
  | .Ellipsis => true
  | .NameConstant _ => true
  | .Attribute value attr =>
      (!is_block_kind value && wf value) && ident_ok attr
  | .Subscript value slice =>
      (!is_block_kind value && wf value) && (!is_block_kind slice && wf slice)
  | .Starred value => !is_block_kind value && wf value
  | .Name id => ident_ok id
  | .List elts => wf_exprs elts
  | .Tuple elts => wf_exprs elts
  | .Slice lower upper step => wf_opt lower && wf_opt upper && wf_opt step
  | .Index value => !is_block_kind value && wf value
  | .comprehension target iter ifs =>
      (!is_block_kind target && wf target) &&
        (!is_block_kind iter && wf iter) && wf_exprs ifs
  | .ExceptHandler type name body =>
      wf_opt type && opt_ident_ok name && wf_stmts body
  | .arguments args vararg kwonlyargs kw_defaults kwarg defaults =>
      wf_exprs args && opt_vararg_ok vararg && wf_exprs kwonlyargs &&
        wf_optlist kw_defaults && opt_vararg_ok kwarg && wf_exprs defaults
  | .arg a annot => ident_ok a && wf_opt annot
  | .keyword a value => ident_ok a && (!is_block_kind value && wf value)
  | .alias name asname => ident_ok name && opt_ident_ok asname
  | .withitem context_expr optional_vars =>
      (!is_block_kind context_expr && wf context_expr) &&
        wf_opt optional_vars

/-- A non-empty list of well-formed statement-kind trees. -/
def wf_stmts : List Ast → Bool
  | [] => false
  | [s] => is_block_kind s && wf s
  | s :: rest => (is_block_kind s && wf s) && wf_stmts rest

/-- A possibly-empty list of well-formed statement-kind trees. -/
def wf_opt_stmts : List Ast → Bool
  | [] => true
  | s :: rest => (is_block_kind s && wf s) && wf_opt_stmts rest

/-- A list of well-formed inline-kind trees. -/
def wf_exprs : List Ast → Bool
  | [] => true
  | e :: rest => (!is_block_kind e && wf e) && wf_exprs rest

def wf_opt : Option Ast → Bool
  | none => true
  | some a => !is_block_kind a && wf a

def wf_optlist : List (Option Ast) → Bool
  | [] => true
  | none :: rest => wf_optlist rest
  | some a :: rest => (!is_block_kind a && wf a) && wf_optlist rest

end

theorem wf_stmts_of_opt (s : Ast) (rest : List Ast)
    (h : wf_opt_stmts (s :: rest) = true) : wf_stmts (s :: rest) = true := by
  induction rest generalizing s with
  | nil =>
      rw [wf_opt_stmts, Bool.and_eq_true] at h
      rw [wf_stmts]
      exact h.1
  | cons t rest2 ih =>
      rw [wf_opt_stmts, Bool.and_eq_true] at h
      rw [show wf_stmts (s :: t :: rest2) =
            ((is_block_kind s && wf s) && wf_stmts (t :: rest2)) from rfl,
          Bool.and_eq_true]
      exact ⟨h.1, ih t h.2⟩

theorem not_blk {a : Ast} (h : (!is_block_kind a) = true) :
    is_block_kind a = false := by
  rcases hb : is_block_kind a with _ | _
  · rfl
  · rw [hb] at h
    simp at h

theorem ast_size_pos (a : Ast) : 1 ≤ ast_size a := by
  cases a <;> simp [ast_size] <;> omega

theorem list_size_pos (l : List Ast) : 1 ≤ list_size l := by
  cases l <;> simp [list_size] <;> omega

theorem optlist_size_pos (l : List (Option Ast)) : 1 ≤ optlist_size l := by
  cases l with
  | nil => simp [optlist_size]
  | cons o rest => cases o <;> simp [optlist_size] <;> omega

/-- Pair form of the block conclusion for a statement-kind node. -/
theorem block_pair {v : Vis} (h : emits_block v) :
    (true = true → emits_block v) ∧ (true = false → emits_inline v) :=
  ⟨fun _ => h, fun hc => absurd hc (by simp)⟩

/-- Pair form of the inline conclusion for an expression-kind node. -/
theorem inline_pair {v : Vis} (h : emits_inline v) :
    (false = true → emits_block v) ∧ (false = false → emits_inline v) :=
  ⟨fun hc => absurd hc (by simp), fun _ => h⟩

theorem ident_ok_isEmpty {s : String} (h : ident_ok s = true) :
    s.isEmpty = false := by
  unfold ident_ok at h
  rw [Bool.and_eq_true] at h
  rcases hr : s.isEmpty with _ | _
  · rfl
  · rw [hr] at h
    simp at h

theorem ident_ok_no_nl {s : String} (h : ident_ok s = true) :
    no_nl s = true := by
  unfold ident_ok at h
  rw [Bool.and_eq_true] at h
  exact h.2

theorem emits_inline_write_identifier {s : String} (h : ident_ok s = true) :
    emits_inline (write_identifier s) :=
  emits_inline_write s (ident_ok_isEmpty h) (ident_ok_no_nl h)

/-- Conditional variant of `emits_inline_ite`: each branch may use the
value of the condition. -/
theorem emits_inline_ite_dep (c : Bool) {a b : Vis}
    (ha : c = true → emits_inline a) (hb : c = false → emits_inline b) :
    emits_inline (if c then a else b) := by
  cases c
  · exact hb rfl
  · exact ha rfl

theorem emits_block0_blank_after (s : Ast) : emits_block0 (blank_after s) := by
  cases s <;>
    first
      | exact emits_block0_of_block emits_block_newline
      | exact emits_block0_nop

theorem bool_not_true {b : Bool} (h : (!b) = true) : b = false := by
  cases b
  · rfl
  · simp at h

theorem opt_size_some (a : Ast) : opt_size (some a) = ast_size a := rfl

theorem list_size_nil : list_size [] = 1 := rfl

theorem list_size_cons (x : Ast) (xs : List Ast) :
    list_size (x :: xs) = 1 + ast_size x + list_size xs := rfl

theorem optlist_size_cons_none (r : List (Option Ast)) :
    optlist_size (none :: r) = 1 + optlist_size r := rfl

theorem optlist_size_cons_some (a : Ast) (r : List (Option Ast)) :
    optlist_size (some a :: r) = 1 + ast_size a + optlist_size r := rfl

theorem wf_exprs_cons {e : Ast} {r : List Ast} (h : wf_exprs (e :: r) = true) :
    ((!is_block_kind e) = true ∧ wf e = true) ∧ wf_exprs r = true := by
  replace h : ((!is_block_kind e && wf e) && wf_exprs r) = true := h
  simp only [Bool.and_eq_true] at h
  exact h

theorem wf_opt_some {a : Ast} (h : wf_opt (some a) = true) :
    (!is_block_kind a) = true ∧ wf a = true := by
  replace h : ((!is_block_kind a) && wf a) = true := h
  simp only [Bool.and_eq_true] at h
  exact h

theorem wf_opt_stmts_cons {s : Ast} {r : List Ast}
    (h : wf_opt_stmts (s :: r) = true) :
    (is_block_kind s = true ∧ wf s = true) ∧ wf_opt_stmts r = true := by
  replace h : ((is_block_kind s && wf s) && wf_opt_stmts r) = true := h
  simp only [Bool.and_eq_true] at h
  exact h

theorem wf_stmts_single {s : Ast} (h : wf_stmts [s] = true) :
    is_block_kind s = true ∧ wf s = true := by
  replace h : (is_block_kind s && wf s) = true := h
  simp only [Bool.and_eq_true] at h
  exact h

theorem wf_stmts_cons2 {s t : Ast} {r : List Ast}
    (h : wf_stmts (s :: t :: r) = true) :
    (is_block_kind s = true ∧ wf s = true) ∧ wf_stmts (t :: r) = true := by
  replace h : ((is_block_kind s && wf s) && wf_stmts (t :: r)) = true := h
  simp only [Bool.and_eq_true] at h
  exact h

theorem wf_optlist_cons_none {r : List (Option Ast)}
    (h : wf_optlist (none :: r) = true) : wf_optlist r = true := h

theorem wf_optlist_cons_some {a : Ast} {r : List (Option Ast)}
    (h : wf_optlist (some a :: r) = true) :
    ((!is_block_kind a) = true ∧ wf a = true) ∧ wf_optlist r = true := by
  replace h : ((!is_block_kind a && wf a) && wf_optlist r) = true := h
  simp only [Bool.and_eq_true] at h
  exact h

set_option maxHeartbeats 4000000 in
/-- Master layout theorem for the `visit` family, by induction on fuel:
with enough fuel, the renderer of a well-formed statement-kind tree is a
block emitter (complete `'\n'`-terminated lines, each blank or indented to
at least the current level, returning to a line start at the same level),
the renderer of a well-formed expression-kind tree is an inline emitter
(newline-free text, indentation prefixed lazily iff the writer was at a
line start), and each loop helper is the block/inline emitter its call
sites require. -/
theorem visit_family_good : ∀ fuel : Nat,
    (∀ a, ast_size a ≤ fuel → wf a = true →
      (is_block_kind a = true → emits_block (visit fuel a)) ∧
      (is_block_kind a = false → emits_inline (visit fuel a))) ∧
    (∀ l, list_size l ≤ fuel → wf_stmts l = true →
      emits_block (visit_statements fuel l)) ∧
    (∀ l, list_size l ≤ fuel → wf_exprs l = true →
      emits_inline (write_comma_separated_nodes fuel l)) ∧
    (∀ l, list_size l ≤ fuel → wf_exprs l = true →
      emits_inline (visit_each fuel l)) ∧
    (∀ l, list_size l ≤ fuel → wf_opt_stmts l = true →
      emits_block0 (visit_each fuel l)) ∧
    (∀ l, list_size l ≤ fuel → wf_exprs l = true →
      emits_block0 (visit_decorators fuel l)) ∧
    (∀ l, list_size l ≤ fuel → wf_exprs l = true →
      emits_inline (visit_assign_targets fuel l)) ∧
    (∀ op l, list_size l ≤ fuel → wf_exprs l = true → (!l.isEmpty) = true →
      emits_inline (visit_boolop_values fuel op l)) ∧
    (∀ cs ops, list_size cs ≤ fuel → wf_exprs cs = true →
      emits_inline (visit_compare_rest fuel cs ops)) ∧
    (∀ ks vs, list_size ks + list_size vs ≤ fuel → wf_exprs ks = true →
      wf_exprs vs = true → emits_inline (visit_dict_items fuel ks vs)) ∧
    (∀ l k, list_size l ≤ fuel → wf_exprs l = true →
      emits_inline (visit_leading_args fuel l k)) ∧
    (∀ l k ds, list_size l + list_size ds ≤ fuel → wf_exprs l = true →
      wf_exprs ds = true → emits_inline (visit_default_pairs fuel l k ds)) ∧
    (∀ l ds, list_size l + optlist_size ds ≤ fuel → wf_exprs l = true →
      wf_optlist ds = true → emits_inline (visit_kwonly_pairs fuel l ds)) ∧
    (∀ l, list_size l ≤ fuel → wf_exprs l = true →
      emits_inline (visit_comprehension_ifs fuel l)) := by
  intro fuel
  induction fuel with
  | zero =>
      refine ⟨?_, ?_, ?_, ?_, ?_, ?_, ?_, ?_, ?_, ?_, ?_, ?_, ?_, ?_⟩
      · intro a hsz _
        exact absurd hsz (by have := ast_size_pos a; omega)
      · intro l hsz _
        exact absurd hsz (by have := list_size_pos l; omega)
      · intro l hsz _
        exact absurd hsz (by have := list_size_pos l; omega)
      · intro l hsz _
        exact absurd hsz (by have := list_size_pos l; omega)
      · intro l hsz _
        exact absurd hsz (by have := list_size_pos l; omega)
      · intro l hsz _
        exact absurd hsz (by have := list_size_pos l; omega)
      · intro l hsz _
        exact absurd hsz (by have := list_size_pos l; omega)
      · intro op l hsz _ _
        exact absurd hsz (by have := list_size_pos l; omega)
      · intro cs ops hsz _
        exact absurd hsz (by have := list_size_pos cs; omega)
      · intro ks vs hsz _ _
        exact absurd hsz (by have := list_size_pos ks; omega)
      · intro l k hsz _
        exact absurd hsz (by have := list_size_pos l; omega)
      · intro l k ds hsz _ _
        exact absurd hsz (by have := list_size_pos l; omega)
      · intro l ds hsz _ _
        exact absurd hsz (by have := list_size_pos l; omega)
      · intro l hsz _
        exact absurd hsz (by have := list_size_pos l; omega)
  | succ fuel ih =>
      obtain ⟨ihv, ihs, ihc, ihe, ihh, ihd, ihat, ihbv, ihcr, ihdi, ihla,
        ihdp, ihkw, ihci⟩ := ih
      have vI : ∀ a, ast_size a ≤ fuel → (!is_block_kind a) = true →
          wf a = true → emits_inline (visit fuel a) :=
        fun a hs h1 h2 => (ihv a hs h2).2 (not_blk h1)
      have vB : ∀ a, ast_size a ≤ fuel → is_block_kind a = true →
          wf a = true → emits_block (visit fuel a) :=
        fun a hs h1 h2 => (ihv a hs h2).1 h1
      refine ⟨?_, ?_, ?_, ?_, ?_, ?_, ?_, ?_, ?_, ?_, ?_, ?_, ?_, ?_⟩
      · -- visit
        intro a hsz hwf
        cases a with
        | Module body =>
            refine block_pair ?_
            replace hwf : wf_stmts body = true := hwf
            replace hsz : 1 + list_size body ≤ fuel + 1 := hsz
            simp only [visit]
            exact ihs body (by omega) hwf
        | FunctionDef name args body dec returns =>
            refine block_pair ?_
            replace hwf : (ident_ok name && (!is_block_kind args && wf args) &&
                wf_stmts body && wf_exprs dec && wf_opt returns) = true := hwf
            replace hsz : 1 + ast_size args + list_size body +
                list_size dec + opt_size returns ≤ fuel + 1 := hsz
            simp only [Bool.and_eq_true] at hwf
            obtain ⟨⟨⟨⟨hname, hargs1, hargs2⟩, hbody⟩, hdec⟩, hret⟩ := hwf
            simp only [visit]
            refine emits_block_seq_right (ihd dec (by omega) hdec)
              (emits_block_of_line_rest
                (emits_line_rest_prepend (emits_inline_write "def " rfl rfl)
                  (emits_line_rest_prepend (emits_inline_write_identifier hname)
                    (emits_line_rest_prepend (emits_inline_write "(" rfl rfl)
                      (emits_line_rest_prepend (vI args (by omega) hargs1 hargs2)
                        (emits_line_rest_prepend (emits_inline_write ")" rfl rfl)
                          (emits_line_rest_prepend ?_
                            (emits_line_rest_prepend
                              (emits_inline_write ":" rfl rfl)
                              (emits_line_rest_seq_newline
                                (emits_block0_of_block
                                  (emits_block_indented
                                    (ihs body (by omega) hbody))))))))))))
            cases returns with
            | none => exact emits_inline_nop
            | some r =>
                obtain ⟨hr1, hr2⟩ := wf_opt_some hret
                rw [opt_size_some] at hsz
                exact emits_inline_seq (emits_inline_write " -> " rfl rfl)
                  (vI r (by omega) hr1 hr2)
        | ClassDef name bases keywords starargs kwargs body dec =>
            refine block_pair ?_
            replace hwf : (ident_ok name && wf_exprs bases &&
                wf_exprs keywords && wf_opt starargs && wf_opt kwargs &&
                wf_stmts body && wf_exprs dec) = true := hwf
            replace hsz : 1 + list_size bases + list_size keywords +
                opt_size starargs + opt_size kwargs + list_size body +
                list_size dec ≤ fuel + 1 := hsz
            simp only [Bool.and_eq_true] at hwf
            obtain ⟨⟨⟨⟨⟨⟨hname, hbases⟩, hkeys⟩, hstar⟩, hkwargs⟩,
              hbody⟩, hdec⟩ := hwf
            simp only [visit]
            refine emits_block_seq_right (ihd dec (by omega) hdec)
              (emits_block_of_line_rest
                (emits_line_rest_prepend (emits_inline_write "class " rfl rfl)
                  (emits_line_rest_prepend (emits_inline_write_identifier hname)
                    (emits_line_rest_prepend ?_
                      (emits_line_rest_prepend (emits_inline_write ":" rfl rfl)
                        (emits_line_rest_seq_newline
                          (emits_block0_of_block
                            (emits_block_indented
                              (ihs body (by omega) hbody)))))))))
            refine emits_inline_ite _ ?_ emits_inline_nop
            refine emits_inline_seq (emits_inline_write "(" rfl rfl)
              (emits_inline_seq (ihc bases (by omega) hbases)
                (emits_inline_seq ?_ (emits_inline_write ")" rfl rfl)))
            refine emits_inline_seq
              (emits_inline_ite _
                (emits_inline_seq
                  (emits_inline_ite _ (emits_inline_write ", " rfl rfl)
                    emits_inline_nop)
                  (ihc keywords (by omega) hkeys))
                emits_inline_nop)
              (emits_inline_seq ?_ ?_)
            · rcases starargs with _ | sa
              · exact emits_inline_nop
              · obtain ⟨hs1, hs2⟩ := wf_opt_some hstar
                rw [opt_size_some] at hsz
                exact emits_inline_seq
                  (emits_inline_ite _ (emits_inline_write ", " rfl rfl)
                    emits_inline_nop)
                  (emits_inline_seq (emits_inline_write "*" rfl rfl)
                    (vI sa (by omega) hs1 hs2))
            · rcases kwargs with _ | kw
              · exact emits_inline_nop
              · obtain ⟨hk1, hk2⟩ := wf_opt_some hkwargs
                rw [opt_size_some] at hsz
                exact emits_inline_seq
                  (emits_inline_ite _ (emits_inline_write ", " rfl rfl)
                    emits_inline_nop)
                  (emits_inline_seq (emits_inline_write "**" rfl rfl)
                    (vI kw (by omega) hk1 hk2))
        | Return value =>
            refine block_pair ?_
            replace hwf : wf_opt value = true := hwf
            replace hsz : 1 + opt_size value ≤ fuel + 1 := hsz
            simp only [visit]
            refine emits_block_writing_statement
              (emits_inline_seq (emits_inline_write "return" rfl rfl) ?_)
            rcases value with _ | v
            · exact emits_inline_nop
            · obtain ⟨h1, h2⟩ := wf_opt_some hwf
              rw [opt_size_some] at hsz
              exact emits_inline_seq (emits_inline_write " " rfl rfl)
                (vI v (by omega) h1 h2)
        | Delete targets =>
            refine block_pair ?_
            replace hwf : wf_exprs targets = true := hwf
            replace hsz : 1 + list_size targets ≤ fuel + 1 := hsz
            simp only [visit]
            exact emits_block_writing_statement
              (emits_inline_seq (emits_inline_write "del " rfl rfl)
                (ihc targets (by omega) hwf))
        | Assign targets value =>
            refine block_pair ?_
            replace hwf : (wf_exprs targets &&
                (!is_block_kind value && wf value)) = true := hwf
            replace hsz : 1 + list_size targets + ast_size value ≤
                fuel + 1 := hsz
            simp only [Bool.and_eq_true] at hwf
            obtain ⟨htargets, hv1, hv2⟩ := hwf
            simp only [visit]
            exact emits_block_writing_statement
              (emits_inline_seq (ihat targets (by omega) htargets)
                (vI value (by omega) hv1 hv2))
        | AugAssign target op value =>
            refine block_pair ?_
            replace hwf : ((!is_block_kind target && wf target) &&
                (!is_block_kind value && wf value)) = true := hwf
            replace hsz : 1 + ast_size target + ast_size value ≤
                fuel + 1 := hsz
            simp only [Bool.and_eq_true] at hwf
            obtain ⟨⟨h1, h2⟩, h3, h4⟩ := hwf
            simp only [visit]
            exact emits_block_writing_statement
              (emits_inline_seq (vI target (by omega) h1 h2)
                (emits_inline_seq (emits_inline_write " " rfl rfl)
                  (emits_inline_seq (emits_inline_operator_tag op)
                    (emits_inline_seq (emits_inline_write "= " rfl rfl)
                      (vI value (by omega) h3 h4)))))
        | For target iter body orelse =>
            refine block_pair ?_
            replace hwf : ((!is_block_kind target && wf target) &&
                (!is_block_kind iter && wf iter) && wf_stmts body &&
                wf_opt_stmts orelse) = true := hwf
            replace hsz : 1 + ast_size target + ast_size iter +
                list_size body + list_size orelse ≤ fuel + 1 := hsz
            simp only [Bool.and_eq_true] at hwf
            obtain ⟨⟨⟨⟨ht1, ht2⟩, hi1, hi2⟩, hbody⟩, horelse⟩ := hwf
            simp only [visit]
            refine emits_block_of_line_rest
              (emits_line_rest_prepend (emits_inline_write "for " rfl rfl)
                (emits_line_rest_prepend (vI target (by omega) ht1 ht2)
                  (emits_line_rest_prepend (emits_inline_write " in " rfl rfl)
                    (emits_line_rest_prepend (vI iter (by omega) hi1 hi2)
                      (emits_line_rest_prepend (emits_inline_write ":" rfl rfl)
                        (emits_line_rest_seq_newline
                          (emits_block0_seq
                            (emits_block0_of_block
                              (emits_block_indented
                                (ihs body (by omega) hbody)))
                            ?_)))))))
            cases orelse with
            | nil => exact emits_block0_nop
            | cons o os =>
                exact emits_block0_of_block
                  (emits_block_seq_left
                    (emits_block_write_line "else:" rfl rfl)
                    (emits_block0_of_block
                      (emits_block_indented
                        (ihs (o :: os) (by omega)
                          (wf_stmts_of_opt o os horelse)))))
        | While test body orelse =>
            refine block_pair ?_
            replace hwf : ((!is_block_kind test && wf test) &&
                wf_stmts body && wf_opt_stmts orelse) = true := hwf
            replace hsz : 1 + ast_size test + list_size body +
                list_size orelse ≤ fuel + 1 := hsz
            simp only [Bool.and_eq_true] at hwf
            obtain ⟨⟨⟨h1, h2⟩, hbody⟩, horelse⟩ := hwf
            simp only [visit]
            refine emits_block_of_line_rest
              (emits_line_rest_prepend (emits_inline_write "while " rfl rfl)
                (emits_line_rest_prepend (vI test (by omega) h1 h2)
                  (emits_line_rest_prepend (emits_inline_write ":" rfl rfl)
                    (emits_line_rest_seq_newline
                      (emits_block0_seq
                        (emits_block0_of_block
                          (emits_block_indented (ihs body (by omega) hbody)))
                        ?_)))))
            cases orelse with
            | nil => exact emits_block0_nop
            | cons o os =>
                exact emits_block0_of_block
                  (emits_block_seq_left
                    (emits_block_write_line "else:" rfl rfl)
                    (emits_block0_of_block
                      (emits_block_indented
                        (ihs (o :: os) (by omega)
                          (wf_stmts_of_opt o os horelse)))))
        | If test body orelse =>
            refine block_pair ?_
            replace hwf : ((!is_block_kind test && wf test) &&
                wf_stmts body && wf_opt_stmts orelse) = true := hwf
            replace hsz : 1 + ast_size test + list_size body +
                list_size orelse ≤ fuel + 1 := hsz
            simp only [Bool.and_eq_true] at hwf
            obtain ⟨⟨⟨h1, h2⟩, hbody⟩, horelse⟩ := hwf
            simp only [visit]
            refine emits_block_of_line_rest
              (emits_line_rest_prepend (emits_inline_write "if " rfl rfl)
                (emits_line_rest_prepend (vI test (by omega) h1 h2)
                  (emits_line_rest_prepend (emits_inline_write ":" rfl rfl)
                    (emits_line_rest_seq_newline
                      (emits_block0_seq
                        (emits_block0_of_block
                          (emits_block_indented (ihs body (by omega) hbody)))
                        ?_)))))
            cases orelse with
            | nil => exact emits_block0_nop
            | cons o os =>
                exact emits_block0_of_block
                  (emits_block_seq_left
                    (emits_block_write_line "else:" rfl rfl)
                    (emits_block0_of_block
                      (emits_block_indented
                        (ihs (o :: os) (by omega)
                          (wf_stmts_of_opt o os horelse)))))
        | With items body =>
            refine block_pair ?_
            replace hwf : (wf_exprs items && wf_stmts body) = true := hwf
            replace hsz : 1 + list_size items + list_size body ≤
                fuel + 1 := hsz
            simp only [Bool.and_eq_true] at hwf
            obtain ⟨hitems, hbody⟩ := hwf
            simp only [visit]
            exact emits_block_of_line_rest
              (emits_line_rest_prepend (emits_inline_write "with " rfl rfl)
                (emits_line_rest_prepend (ihc items (by omega) hitems)
                  (emits_line_rest_prepend (emits_inline_write ":" rfl rfl)
                    (emits_line_rest_seq_newline
                      (emits_block0_of_block
                        (emits_block_indented (ihs body (by omega) hbody)))))))
        | Raise exc cause =>
            refine block_pair ?_
            replace hwf : (wf_opt exc && wf_opt cause) = true := hwf
            replace hsz : 1 + opt_size exc + opt_size cause ≤ fuel + 1 := hsz
            simp only [Bool.and_eq_true] at hwf
            obtain ⟨hexc, hcause⟩ := hwf
            simp only [visit]
            refine emits_block_writing_statement
              (emits_inline_seq (emits_inline_write "raise" rfl rfl)
                (emits_inline_seq ?_ ?_))
            · rcases exc with _ | e
              · exact emits_inline_nop
              · obtain ⟨h1, h2⟩ := wf_opt_some hexc
                rw [opt_size_some] at hsz
                exact emits_inline_seq (emits_inline_write " " rfl rfl)
                  (vI e (by omega) h1 h2)
            · rcases cause with _ | c
              · exact emits_inline_nop
              · obtain ⟨h1, h2⟩ := wf_opt_some hcause
                rw [opt_size_some] at hsz
                exact emits_inline_seq (emits_inline_write " from " rfl rfl)
                  (vI c (by omega) h1 h2)
        | Try body handlers orelse finalbody =>
            refine block_pair ?_
            replace hwf : (wf_stmts body && wf_opt_stmts handlers &&
                wf_opt_stmts orelse && wf_opt_stmts finalbody) = true := hwf
            replace hsz : 1 + list_size body + list_size handlers +
                list_size orelse + list_size finalbody ≤ fuel + 1 := hsz
            simp only [Bool.and_eq_true] at hwf
            obtain ⟨⟨⟨hbody, hhand⟩, horelse⟩, hfin⟩ := hwf
            simp only [visit]
            refine emits_block_seq_left
              (emits_block_write_line "try:" rfl rfl)
              (emits_block0_seq
                (emits_block0_of_block
                  (emits_block_indented (ihs body (by omega) hbody)))
                (emits_block0_seq (ihh handlers (by omega) hhand)
                  (emits_block0_seq ?_ ?_)))
            · cases orelse with
              | nil => exact emits_block0_nop
              | cons o os =>
                  exact emits_block0_of_block
                    (emits_block_seq_left
                      (emits_block_write_line "else:" rfl rfl)
                      (emits_block0_of_block
                        (emits_block_indented
                          (ihs (o :: os) (by omega)
                            (wf_stmts_of_opt o os horelse)))))
            · cases finalbody with
              | nil => exact emits_block0_nop
              | cons f fs =>
                  exact emits_block0_of_block
                    (emits_block_seq_left
                      (emits_block_write_line "finally:" rfl rfl)
                      (emits_block0_of_block
                        (emits_block_indented
                          (ihs (f :: fs) (by omega)
                            (wf_stmts_of_opt f fs hfin)))))
        | Assert test msg =>
            refine block_pair ?_
            replace hwf : ((!is_block_kind test && wf test) &&
                wf_opt msg) = true := hwf
            replace hsz : 1 + ast_size test + opt_size msg ≤ fuel + 1 := hsz
            simp only [Bool.and_eq_true] at hwf
            obtain ⟨⟨h1, h2⟩, hmsg⟩ := hwf
            simp only [visit]
            refine emits_block_writing_statement
              (emits_inline_seq (emits_inline_write "assert " rfl rfl)
                (emits_inline_seq (vI test (by omega) h1 h2) ?_))
            rcases msg with _ | m
            · exact emits_inline_nop
            · obtain ⟨h3, h4⟩ := wf_opt_some hmsg
              rw [opt_size_some] at hsz
              exact emits_inline_seq (emits_inline_write ", " rfl rfl)
                (vI m (by omega) h3 h4)
        | Import names =>
            refine block_pair ?_
            replace hwf : wf_exprs names = true := hwf
            replace hsz : 1 + list_size names ≤ fuel + 1 := hsz
            simp only [visit]
            exact emits_block_writing_statement
              (emits_inline_seq (emits_inline_write "import " rfl rfl)
                (ihc names (by omega) hwf))
        | ImportFrom module names level =>
            refine block_pair ?_
            replace hwf : (opt_ident_ok module && wf_exprs names) = true := hwf
            replace hsz : 1 + list_size names ≤ fuel + 1 := hsz
            simp only [Bool.and_eq_true] at hwf
            obtain ⟨hmod, hnames⟩ := hwf
            simp only [visit]
            refine emits_block_writing_statement
              (emits_inline_seq (emits_inline_write "from " rfl rfl)
                (emits_inline_seq ?_
                  (emits_inline_seq (emits_inline_write " import " rfl rfl)
                    (ihc names (by omega) hnames))))
            rcases module with _ | m
            · exact emits_inline_write "." rfl rfl
            · replace hmod : ident_ok m = true := hmod
              exact emits_inline_write_identifier hmod
        | Global names =>
            refine block_pair ?_
            simp only [visit]
            exact emits_block_writing_statement
              (emits_inline_seq (emits_inline_write "global " rfl rfl)
                (emits_inline_comma_ids names hwf))
        | Nonlocal names =>
            refine block_pair ?_
            simp only [visit]
            exact emits_block_writing_statement
              (emits_inline_seq (emits_inline_write "nonlocal " rfl rfl)
                (emits_inline_comma_ids names hwf))
        | Expr value =>
            refine block_pair ?_
            replace hwf : ((!is_block_kind value) && wf value) = true := hwf
            replace hsz : 1 + ast_size value ≤ fuel + 1 := hsz
            simp only [Bool.and_eq_true] at hwf
            simp only [visit]
            exact emits_block_writing_statement
              (vI value (by omega) hwf.1 hwf.2)
        | Pass =>
            exact block_pair (emits_block_write_line "pass" rfl rfl)
        | Break =>
            exact block_pair (emits_block_write_line "break" rfl rfl)
        | Continue =>
            exact block_pair (emits_block_write_line "continue" rfl rfl)
        | BoolOp op values =>
            refine inline_pair ?_
            replace hwf : ((!values.isEmpty) && wf_exprs values) = true := hwf
            replace hsz : 1 + list_size values ≤ fuel + 1 := hsz
            simp only [Bool.and_eq_true] at hwf
            simp only [visit]
            exact ihbv op values (by omega) hwf.2 hwf.1
        | BinOp left op right =>
            refine inline_pair ?_
            replace hwf : ((!is_block_kind left && wf left) &&
                (!is_block_kind right && wf right)) = true := hwf
            replace hsz : 1 + ast_size left + ast_size right ≤ fuel + 1 := hsz
            simp only [Bool.and_eq_true] at hwf
            obtain ⟨⟨hl1, hl2⟩, hr1, hr2⟩ := hwf
            simp only [visit]
            exact emits_inline_seq
              (emits_inline_wrap _ (vI left (by omega) hl1 hl2))
              (emits_inline_seq (emits_inline_write " " rfl rfl)
                (emits_inline_seq (emits_inline_operator_tag op)
                  (emits_inline_seq (emits_inline_write " " rfl rfl)
                    (emits_inline_wrap _ (vI right (by omega) hr1 hr2)))))
        | UnaryOp op operand =>
            refine inline_pair ?_
            replace hwf : ((!is_block_kind operand) && wf operand) = true := hwf
            replace hsz : 1 + ast_size operand ≤ fuel + 1 := hsz
            simp only [Bool.and_eq_true] at hwf
            simp only [visit]
            exact emits_inline_seq (emits_inline_unaryop_tag op)
              (emits_inline_wrap _ (vI operand (by omega) hwf.1 hwf.2))
        | Lambda args body =>
            refine inline_pair ?_
            replace hwf : ((!is_block_kind args && wf args) &&
                (!is_block_kind body && wf body)) = true := hwf
            replace hsz : 1 + ast_size args + ast_size body ≤ fuel + 1 := hsz
            simp only [Bool.and_eq_true] at hwf
            obtain ⟨⟨h1, h2⟩, h3, h4⟩ := hwf
            simp only [visit]
            exact emits_inline_seq (emits_inline_write "lambda " rfl rfl)
              (emits_inline_seq (vI args (by omega) h1 h2)
                (emits_inline_seq (emits_inline_write ": " rfl rfl)
                  (vI body (by omega) h3 h4)))
        | IfExp test body orelse =>
            refine inline_pair ?_
            replace hwf : ((!is_block_kind test && wf test) &&
                (!is_block_kind body && wf body) &&
                (!is_block_kind orelse && wf orelse)) = true := hwf
            replace hsz : 1 + ast_size test + ast_size body +
                ast_size orelse ≤ fuel + 1 := hsz
            simp only [Bool.and_eq_true] at hwf
            obtain ⟨⟨⟨ht1, ht2⟩, hb1, hb2⟩, ho1, ho2⟩ := hwf
            simp only [visit]
            exact emits_inline_seq
              (emits_inline_wrap _ (vI body (by omega) hb1 hb2))
              (emits_inline_seq (emits_inline_write " if " rfl rfl)
                (emits_inline_seq
                  (emits_inline_wrap _ (vI test (by omega) ht1 ht2))
                  (emits_inline_seq (emits_inline_write " else " rfl rfl)
                    (vI orelse (by omega) ho1 ho2))))
        | Dict keys values =>
            refine inline_pair ?_
            replace hwf : (wf_exprs keys && wf_exprs values) = true := hwf
            replace hsz : 1 + list_size keys + list_size values ≤
                fuel + 1 := hsz
            simp only [Bool.and_eq_true] at hwf
            simp only [visit]
            exact emits_inline_seq (emits_inline_write "\x7b" rfl rfl)
              (emits_inline_seq (ihdi keys values (by omega) hwf.1 hwf.2)
                (emits_inline_write "\x7d" rfl rfl))
        | Set elts =>
            refine inline_pair ?_
            replace hwf : wf_exprs elts = true := hwf
            replace hsz : 1 + list_size elts ≤ fuel + 1 := hsz
            simp only [visit]
            exact emits_inline_seq (emits_inline_write "\x7b" rfl rfl)
              (emits_inline_seq (ihc elts (by omega) hwf)
                (emits_inline_write "\x7d" rfl rfl))
        | ListComp elt generators =>
            refine inline_pair ?_
            replace hwf : ((!is_block_kind elt && wf elt) &&
                wf_exprs generators) = true := hwf
            replace hsz : 1 + ast_size elt + list_size generators ≤
                fuel + 1 := hsz
            simp only [Bool.and_eq_true] at hwf
            obtain ⟨⟨h1, h2⟩, hgens⟩ := hwf
            simp only [visit]
            exact emits_inline_seq (emits_inline_write "[" rfl rfl)
              (emits_inline_seq (vI elt (by omega) h1 h2)
                (emits_inline_seq (ihe generators (by omega) hgens)
                  (emits_inline_write "]" rfl rfl)))
        | SetComp elt generators =>
            refine inline_pair ?_
            replace hwf : ((!is_block_kind elt && wf elt) &&
                wf_exprs generators) = true := hwf
            replace hsz : 1 + ast_size elt + list_size generators ≤
                fuel + 1 := hsz
            simp only [Bool.and_eq_true] at hwf
            obtain ⟨⟨h1, h2⟩, hgens⟩ := hwf
            simp only [visit]
            exact emits_inline_seq (emits_inline_write "\x7b" rfl rfl)
              (emits_inline_seq (vI elt (by omega) h1 h2)
                (emits_inline_seq (ihe generators (by omega) hgens)
                  (emits_inline_write "\x7d" rfl rfl)))
        | DictComp key value generators =>
            refine inline_pair ?_
            replace hwf : ((!is_block_kind key && wf key) &&
                (!is_block_kind value && wf value) &&
                wf_exprs generators) = true := hwf
            replace hsz : 1 + ast_size key + ast_size value +
                list_size generators ≤ fuel + 1 := hsz
            simp only [Bool.and_eq_true] at hwf
            obtain ⟨⟨⟨hk1, hk2⟩, hv1, hv2⟩, hgens⟩ := hwf
            simp only [visit]
            exact emits_inline_seq (emits_inline_write "\x7b" rfl rfl)
              (emits_inline_seq (vI key (by omega) hk1 hk2)
                (emits_inline_seq (emits_inline_write ": " rfl rfl)
                  (emits_inline_seq (vI value (by omega) hv1 hv2)
                    (emits_inline_seq (ihe generators (by omega) hgens)
                      (emits_inline_write "\x7d" rfl rfl)))))
        | GeneratorExp elt generators =>
            refine inline_pair ?_
            replace hwf : ((!is_block_kind elt && wf elt) &&
                wf_exprs generators) = true := hwf
            replace hsz : 1 + ast_size elt + list_size generators ≤
                fuel + 1 := hsz
            simp only [Bool.and_eq_true] at hwf
            obtain ⟨⟨h1, h2⟩, hgens⟩ := hwf
            simp only [visit]
            exact emits_inline_seq (emits_inline_write "(" rfl rfl)
              (emits_inline_seq (vI elt (by omega) h1 h2)
                (emits_inline_seq (ihe generators (by omega) hgens)
                  (emits_inline_write ")" rfl rfl)))
        | Yield value =>
            refine inline_pair ?_
            replace hwf : wf_opt value = true := hwf
            replace hsz : 1 + opt_size value ≤ fuel + 1 := hsz
            simp only [visit]
            refine emits_inline_seq (emits_inline_write "yield" rfl rfl) ?_
            rcases value with _ | v
            · exact emits_inline_nop
            · obtain ⟨h1, h2⟩ := wf_opt_some hwf
              rw [opt_size_some] at hsz
              exact emits_inline_seq (emits_inline_write " " rfl rfl)
                (vI v (by omega) h1 h2)
        | YieldFrom value =>
            refine inline_pair ?_
            replace hwf : ((!is_block_kind value) && wf value) = true := hwf
            replace hsz : 1 + ast_size value ≤ fuel + 1 := hsz
            simp only [Bool.and_eq_true] at hwf
            simp only [visit]
            exact emits_inline_seq (emits_inline_write "yield from " rfl rfl)
              (vI value (by omega) hwf.1 hwf.2)
        | Compare left ops comparators =>
            refine inline_pair ?_
            replace hwf : ((!is_block_kind left && wf left) &&
                wf_exprs comparators) = true := hwf
            replace hsz : 1 + ast_size left + list_size comparators ≤
                fuel + 1 := hsz
            simp only [Bool.and_eq_true] at hwf
            obtain ⟨⟨h1, h2⟩, hcomp⟩ := hwf
            simp only [visit]
            exact emits_inline_seq (vI left (by omega) h1 h2)
              (ihcr comparators ops (by omega) hcomp)
        | Call func args keywords starargs kwargs =>
            refine inline_pair ?_
            replace hwf : ((!is_block_kind func && wf func) &&
                wf_exprs args && wf_exprs keywords && wf_opt starargs &&
                wf_opt kwargs) = true := hwf
            replace hsz : 1 + ast_size func + list_size args +
                list_size keywords + opt_size starargs + opt_size kwargs ≤
                fuel + 1 := hsz
            simp only [Bool.and_eq_true] at hwf
            obtain ⟨⟨⟨⟨⟨hf1, hf2⟩, hargs⟩, hkeys⟩, hstar⟩, hkw⟩ := hwf
            simp only [visit]
            refine emits_inline_seq
              (emits_inline_wrap _ (vI func (by omega) hf1 hf2))
              (emits_inline_seq (emits_inline_write "(" rfl rfl)
                (emits_inline_seq (ihc args (by omega) hargs)
                  (emits_inline_seq
                    (emits_inline_ite _
                      (emits_inline_seq
                        (emits_inline_ite _ (emits_inline_write ", " rfl rfl)
                          emits_inline_nop)
                        (ihc keywords (by omega) hkeys))
                      emits_inline_nop)
                    (emits_inline_seq ?_
                      (emits_inline_seq ?_
                        (emits_inline_write ")" rfl rfl))))))
            · rcases starargs with _ | sa
              · exact emits_inline_nop
              · obtain ⟨h1, h2⟩ := wf_opt_some hstar
                rw [opt_size_some] at hsz
                exact emits_inline_seq
                  (emits_inline_ite _ (emits_inline_write ", " rfl rfl)
                    emits_inline_nop)
                  (emits_inline_seq (emits_inline_write "*" rfl rfl)
                    (vI sa (by omega) h1 h2))
            · rcases kwargs with _ | kw2
              · exact emits_inline_nop
              · obtain ⟨h1, h2⟩ := wf_opt_some hkw
                rw [opt_size_some] at hsz
                exact emits_inline_seq
                  (emits_inline_ite _ (emits_inline_write ", " rfl rfl)
                    emits_inline_nop)
                  (emits_inline_seq (emits_inline_write "**" rfl rfl)
                    (vI kw2 (by omega) h1 h2))
        | Num n =>
            exact inline_pair
              (emits_inline_write (int_repr n) (int_repr_isEmpty n)
                (int_repr_no_nl n))
        | Str s =>
            exact inline_pair
              (emits_inline_write (str_repr s) (str_repr_isEmpty s)
                (str_repr_no_nl s))
        | Bytes s =>
            exact inline_pair
              (emits_inline_write (bytes_repr s) (bytes_repr_isEmpty s)
                (bytes_repr_no_nl s))
        | Ellipsis =>
            exact inline_pair (emits_inline_write "..." rfl rfl)
        | NameConstant v =>
            exact inline_pair emits_inline_nop
        | Attribute value attr =>
            refine inline_pair ?_
            replace hwf : ((!is_block_kind value && wf value) &&
                ident_ok attr) = true := hwf
            replace hsz : 1 + ast_size value ≤ fuel + 1 := hsz
            simp only [Bool.and_eq_true] at hwf
            obtain ⟨⟨h1, h2⟩, hattr⟩ := hwf
            simp only [visit]
            exact emits_inline_seq
              (emits_inline_wrap _ (vI value (by omega) h1 h2))
              (emits_inline_seq (emits_inline_write "." rfl rfl)
                (emits_inline_write_identifier hattr))
        | Subscript value slice =>
            refine inline_pair ?_
            replace hwf : ((!is_block_kind value && wf value) &&
                (!is_block_kind slice && wf slice)) = true := hwf
            replace hsz : 1 + ast_size value + ast_size slice ≤
                fuel + 1 := hsz
            simp only [Bool.and_eq_true] at hwf
            obtain ⟨⟨h1, h2⟩, h3, h4⟩ := hwf
            simp only [visit]
            exact emits_inline_seq
              (emits_inline_wrap _ (vI value (by omega) h1 h2))
              (emits_inline_seq (emits_inline_write "[" rfl rfl)
                (emits_inline_seq (vI slice (by omega) h3 h4)
                  (emits_inline_write "]" rfl rfl)))
        | Starred value =>
            refine inline_pair ?_
            replace hwf : ((!is_block_kind value) && wf value) = true := hwf
            replace hsz : 1 + ast_size value ≤ fuel + 1 := hsz
            simp only [Bool.and_eq_true] at hwf
            simp only [visit]
            exact emits_inline_seq (emits_inline_write "*" rfl rfl)
              (vI value (by omega) hwf.1 hwf.2)
        | Name id =>
            refine inline_pair ?_
            replace hwf : ident_ok id = true := hwf
            simp only [visit]
            exact emits_inline_write_identifier hwf
        | List elts =>
            refine inline_pair ?_
            replace hwf : wf_exprs elts = true := hwf
            replace hsz : 1 + list_size elts ≤ fuel + 1 := hsz
            simp only [visit]
            exact emits_inline_seq (emits_inline_write "[" rfl rfl)
              (emits_inline_seq (ihc elts (by omega) hwf)
                (emits_inline_write "]" rfl rfl))
        | Tuple elts =>
            refine inline_pair ?_
            replace hwf : wf_exprs elts = true := hwf
            replace hsz : 1 + list_size elts ≤ fuel + 1 := hsz
            simp only [visit]
            exact ihc elts (by omega) hwf
        | Slice lower upper step =>
            refine inline_pair ?_
            replace hwf : (wf_opt lower && wf_opt upper &&
                wf_opt step) = true := hwf
            replace hsz : 1 + opt_size lower + opt_size upper +
                opt_size step ≤ fuel + 1 := hsz
            simp only [Bool.and_eq_true] at hwf
            obtain ⟨⟨hlow, hup⟩, hstep⟩ := hwf
            simp only [visit]
            refine emits_inline_seq ?_
              (emits_inline_seq ?_
                (emits_inline_seq ?_
                  (emits_inline_ite _ (emits_inline_write ":" rfl rfl)
                    emits_inline_nop)))
            · rcases lower with _ | lo
              · exact emits_inline_nop
              · obtain ⟨h1, h2⟩ := wf_opt_some hlow
                rw [opt_size_some] at hsz
                exact emits_inline_seq (vI lo (by omega) h1 h2)
                  (emits_inline_write ":" rfl rfl)
            · rcases upper with _ | up
              · exact emits_inline_nop
              · obtain ⟨h1, h2⟩ := wf_opt_some hup
                rw [opt_size_some] at hsz
                exact emits_inline_seq
                  (emits_inline_ite _ (emits_inline_write ":" rfl rfl)
                    emits_inline_nop)
                  (vI up (by omega) h1 h2)
            · rcases step with _ | st
              · exact emits_inline_nop
              · obtain ⟨h1, h2⟩ := wf_opt_some hstep
                rw [opt_size_some] at hsz
                exact emits_inline_seq
                  (emits_inline_ite _ (emits_inline_write "::" rfl rfl)
                    emits_inline_nop)
                  (emits_inline_seq
                    (emits_inline_ite _ (emits_inline_write ":" rfl rfl)
                      emits_inline_nop)
                    (vI st (by omega) h1 h2))
        | Index value =>
            refine inline_pair ?_
            replace hwf : ((!is_block_kind value) && wf value) = true := hwf
            replace hsz : 1 + ast_size value ≤ fuel + 1 := hsz
            simp only [Bool.and_eq_true] at hwf
            simp only [visit]
            exact vI value (by omega) hwf.1 hwf.2
        | comprehension target iter ifs =>
            refine inline_pair ?_
            replace hwf : ((!is_block_kind target && wf target) &&
                (!is_block_kind iter && wf iter) && wf_exprs ifs) = true := hwf
            replace hsz : 1 + ast_size target + ast_size iter +
                list_size ifs ≤ fuel + 1 := hsz
            simp only [Bool.and_eq_true] at hwf
            obtain ⟨⟨⟨ht1, ht2⟩, hi1, hi2⟩, hifs⟩ := hwf
            simp only [visit]
            refine emits_inline_seq (emits_inline_write " for " rfl rfl)
              (emits_inline_seq (vI target (by omega) ht1 ht2)
                (emits_inline_seq (emits_inline_write " in " rfl rfl)
                  (emits_inline_seq (vI iter (by omega) hi1 hi2) ?_)))
            cases ifs with
            | nil => exact emits_inline_nop
            | cons i irest =>
                exact emits_inline_seq (emits_inline_write " if " rfl rfl)
                  (ihci (i :: irest) (by omega) hifs)
        | ExceptHandler type name body =>
            refine block_pair ?_
            replace hwf : (wf_opt type && opt_ident_ok name &&
                wf_stmts body) = true := hwf
            replace hsz : 1 + opt_size type + list_size body ≤ fuel + 1 := hsz
            simp only [Bool.and_eq_true] at hwf
            obtain ⟨⟨htype, hname⟩, hbody⟩ := hwf
            simp only [visit]
            refine emits_block_of_line_rest
              (emits_line_rest_prepend (emits_inline_write "except" rfl rfl)
                (emits_line_rest_prepend ?_
                  (emits_line_rest_prepend ?_
                    (emits_line_rest_prepend (emits_inline_write ":" rfl rfl)
                      (emits_line_rest_seq_newline
                        (emits_block0_of_block
                          (emits_block_indented
                            (ihs body (by omega) hbody))))))))
            · rcases type with _ | t
              · exact emits_inline_nop
              · obtain ⟨h1, h2⟩ := wf_opt_some htype
                rw [opt_size_some] at hsz
                exact emits_inline_seq (emits_inline_write " " rfl rfl)
                  (vI t (by omega) h1 h2)
            · rcases name with _ | n
              · exact emits_inline_nop
              · replace hname : ident_ok n = true := hname
                exact emits_inline_seq (emits_inline_write " as " rfl rfl)
                  (emits_inline_write n (ident_ok_isEmpty hname)
                    (ident_ok_no_nl hname))
        | arguments args vararg kwonlyargs kw_defaults kwarg defaults =>
            refine inline_pair ?_
            replace hwf : (wf_exprs args && opt_vararg_ok vararg &&
                wf_exprs kwonlyargs && wf_optlist kw_defaults &&
                opt_vararg_ok kwarg && wf_exprs defaults) = true := hwf
            replace hsz : 1 + 2 * list_size args + 2 * list_size defaults +
                list_size kwonlyargs + optlist_size kw_defaults ≤
                fuel + 1 := hsz
            simp only [Bool.and_eq_true] at hwf
            obtain ⟨⟨⟨⟨⟨hargs, hvar⟩, hkonly⟩, hkd⟩, hkwv⟩, hdefs⟩ := hwf
            simp only [visit]
            refine emits_inline_seq ?_
              (emits_inline_seq ?_ (emits_inline_seq ?_ ?_))
            · refine emits_inline_ite _ ?_ emits_inline_nop
              exact emits_inline_seq
                (emits_inline_ite _ (ihla args _ (by omega) hargs)
                  emits_inline_nop)
                (emits_inline_ite _
                  (emits_inline_seq
                    (emits_inline_ite _ (emits_inline_write ", " rfl rfl)
                      emits_inline_nop)
                    (ihdp args _ defaults (by omega) hargs hdefs))
                  emits_inline_nop)
            · rcases vararg with _ | v
              · exact emits_inline_nop
              · replace hvar : no_nl v = true := hvar
                refine emits_inline_ite_dep _ ?_ (fun _ => emits_inline_nop)
                intro hv
                replace hv : (!v.isEmpty) = true := hv
                exact emits_inline_seq
                  (emits_inline_ite _ (emits_inline_write ", " rfl rfl)
                    emits_inline_nop)
                  (emits_inline_seq (emits_inline_write "*" rfl rfl)
                    (emits_inline_write v (bool_not_true hv) hvar))
            · exact emits_inline_ite _
                (emits_inline_seq
                  (emits_inline_ite _ (emits_inline_write "*, " rfl rfl)
                    emits_inline_nop)
                  (ihkw kwonlyargs kw_defaults (by omega) hkonly hkd))
                emits_inline_nop
            · rcases kwarg with _ | kw
              · exact emits_inline_nop
              · replace hkwv : no_nl kw = true := hkwv
                refine emits_inline_ite_dep _ ?_ (fun _ => emits_inline_nop)
                intro hk
                replace hk : (!kw.isEmpty) = true := hk
                exact emits_inline_seq
                  (emits_inline_ite _ (emits_inline_write ", " rfl rfl)
                    emits_inline_nop)
                  (emits_inline_seq (emits_inline_write "**" rfl rfl)
                    (emits_inline_write kw (bool_not_true hk) hkwv))
        | arg a annot =>
            refine inline_pair ?_
            replace hwf : (ident_ok a && wf_opt annot) = true := hwf
            replace hsz : 1 + opt_size annot ≤ fuel + 1 := hsz
            simp only [Bool.and_eq_true] at hwf
            obtain ⟨ha, hannot⟩ := hwf
            simp only [visit]
            refine emits_inline_seq
              (emits_inline_write a (ident_ok_isEmpty ha)
                (ident_ok_no_nl ha)) ?_
            rcases annot with _ | an
            · exact emits_inline_nop
            · obtain ⟨h1, h2⟩ := wf_opt_some hannot
              rw [opt_size_some] at hsz
              exact emits_inline_seq (emits_inline_write ": " rfl rfl)
                (vI an (by omega) h1 h2)
        | keyword a value =>
            refine inline_pair ?_
            replace hwf : (ident_ok a &&
                (!is_block_kind value && wf value)) = true := hwf
            replace hsz : 1 + ast_size value ≤ fuel + 1 := hsz
            simp only [Bool.and_eq_true] at hwf
            obtain ⟨ha, h1, h2⟩ := hwf
            simp only [visit]
            exact emits_inline_seq (emits_inline_write_identifier ha)
              (emits_inline_seq (emits_inline_write "=" rfl rfl)
                (vI value (by omega) h1 h2))
        | «alias» name asname =>
            refine inline_pair ?_
            replace hwf : (ident_ok name && opt_ident_ok asname) = true := hwf
            simp only [Bool.and_eq_true] at hwf
            obtain ⟨hn, hasn⟩ := hwf
            simp only [visit]
            refine emits_inline_seq (emits_inline_write_identifier hn) ?_
            rcases asname with _ | asn
            · exact emits_inline_nop
            · replace hasn : ident_ok asn = true := hasn
              exact emits_inline_seq (emits_inline_write " as " rfl rfl)
                (emits_inline_write_identifier hasn)
        | withitem context_expr optional_vars =>
            refine inline_pair ?_
            replace hwf : ((!is_block_kind context_expr && wf context_expr) &&
                wf_opt optional_vars) = true := hwf
            replace hsz : 1 + ast_size context_expr +
                opt_size optional_vars ≤ fuel + 1 := hsz
            simp only [Bool.and_eq_true] at hwf
            obtain ⟨⟨h1, h2⟩, hov⟩ := hwf
            simp only [visit]
            refine emits_inline_seq (vI context_expr (by omega) h1 h2) ?_
            rcases optional_vars with _ | ov
            · exact emits_inline_nop
            · obtain ⟨h3, h4⟩ := wf_opt_some hov
              rw [opt_size_some] at hsz
              exact emits_inline_seq (emits_inline_write " as " rfl rfl)
                (vI ov (by omega) h3 h4)
      · -- visit_statements
        intro l hsz hwf
        cases l with
        | nil => exact absurd hwf (by simp [wf_stmts])
        | cons s rest =>
            cases rest with
            | nil =>
                obtain ⟨hbk, hw⟩ := wf_stmts_single hwf
                rw [list_size_cons, list_size_nil] at hsz
                simp only [visit_statements]
                exact vB s (by omega) hbk hw
            | cons t rest2 =>
                obtain ⟨⟨hbk, hw⟩, hrest⟩ := wf_stmts_cons2 hwf
                rw [list_size_cons] at hsz
                simp only [visit_statements]
                exact emits_block_seq
                  (emits_block_seq_left (vB s (by omega) hbk hw)
                    (emits_block0_blank_after s))
                  (ihs (t :: rest2) (by omega) hrest)
      · -- write_comma_separated_nodes
        intro l hsz hwf
        cases l with
        | nil => exact emits_inline_nop
        | cons n rest =>
            obtain ⟨⟨hnb, hnw⟩, hrest⟩ := wf_exprs_cons hwf
            rw [list_size_cons] at hsz
            cases rest with
            | nil =>
                simp only [write_comma_separated_nodes]
                exact vI n (by omega) hnb hnw
            | cons m rest2 =>
                simp only [write_comma_separated_nodes]
                exact emits_inline_seq (vI n (by omega) hnb hnw)
                  (emits_inline_seq (emits_inline_write ", " rfl rfl)
                    (ihc (m :: rest2) (by omega) hrest))
      · -- visit_each, inline
        intro l hsz hwf
        cases l with
        | nil => exact emits_inline_nop
        | cons n rest =>
            obtain ⟨⟨hnb, hnw⟩, hrest⟩ := wf_exprs_cons hwf
            rw [list_size_cons] at hsz
            simp only [visit_each]
            exact emits_inline_seq (vI n (by omega) hnb hnw)
              (ihe rest (by omega) hrest)
      · -- visit_each, block
        intro l hsz hwf
        cases l with
        | nil => exact emits_block0_nop
        | cons hnd rest =>
            obtain ⟨⟨hbk, hw⟩, hrest⟩ := wf_opt_stmts_cons hwf
            rw [list_size_cons] at hsz
            simp only [visit_each]
            exact emits_block0_seq
              (emits_block0_of_block (vB hnd (by omega) hbk hw))
              (ihh rest (by omega) hrest)
      · -- visit_decorators
        intro l hsz hwf
        cases l with
        | nil => exact emits_block0_nop
        | cons d rest =>
            obtain ⟨⟨hdb, hdw⟩, hrest⟩ := wf_exprs_cons hwf
            rw [list_size_cons] at hsz
            simp only [visit_decorators]
            exact emits_block0_of_block
              (emits_block_of_line_rest
                (emits_line_rest_prepend (emits_inline_write "@" rfl rfl)
                  (emits_line_rest_prepend (vI d (by omega) hdb hdw)
                    (emits_line_rest_seq_newline
                      (ihd rest (by omega) hrest)))))
      · -- visit_assign_targets
        intro l hsz hwf
        cases l with
        | nil => exact emits_inline_nop
        | cons t rest =>
            obtain ⟨⟨htb, htw⟩, hrest⟩ := wf_exprs_cons hwf
            rw [list_size_cons] at hsz
            simp only [visit_assign_targets]
            exact emits_inline_seq (vI t (by omega) htb htw)
              (emits_inline_seq (emits_inline_write " = " rfl rfl)
                (ihat rest (by omega) hrest))
      · -- visit_boolop_values
        intro op l hsz hwf hne
        cases l with
        | nil => simp at hne
        | cons v rest =>
            obtain ⟨⟨hvb, hvw⟩, hrest⟩ := wf_exprs_cons hwf
            rw [list_size_cons] at hsz
            cases rest with
            | nil =>
                simp only [visit_boolop_values]
                exact emits_inline_wrap _ (vI v (by omega) hvb hvw)
            | cons v2 rest2 =>
                simp only [visit_boolop_values]
                exact emits_inline_seq
                  (emits_inline_wrap _ (vI v (by omega) hvb hvw))
                  (emits_inline_seq (emits_inline_boolop_tag op)
                    (ihbv op (v2 :: rest2) (by omega) hrest (by simp)))
      · -- visit_compare_rest
        intro cs ops hsz hwf
        cases cs with
        | nil => cases ops <;> exact emits_inline_nop
        | cons c cs2 =>
            obtain ⟨⟨hcb, hcw⟩, hrest⟩ := wf_exprs_cons hwf
            rw [list_size_cons] at hsz
            cases ops with
            | nil => exact emits_inline_nop
            | cons op ops2 =>
                simp only [visit_compare_rest]
                exact emits_inline_seq (emits_inline_write " " rfl rfl)
                  (emits_inline_seq (emits_inline_cmpop_tag op)
                    (emits_inline_seq (emits_inline_write " " rfl rfl)
                      (emits_inline_seq (vI c (by omega) hcb hcw)
                        (ihcr cs2 ops2 (by omega) hrest))))
      · -- visit_dict_items
        intro ks vs hsz hwf1 hwf2
        cases ks with
        | nil => cases vs <;> exact emits_inline_nop
        | cons k ks2 =>
            cases vs with
            | nil => exact emits_inline_nop
            | cons v vs2 =>
                obtain ⟨⟨hkb, hkw2⟩, hks⟩ := wf_exprs_cons hwf1
                obtain ⟨⟨hvb, hvw⟩, hvs⟩ := wf_exprs_cons hwf2
                rw [list_size_cons, list_size_cons] at hsz
                simp only [visit_dict_items]
                refine emits_inline_seq (vI k (by omega) hkb hkw2)
                  (emits_inline_seq (emits_inline_write ": " rfl rfl)
                    (emits_inline_seq (vI v (by omega) hvb hvw) ?_))
                cases ks2 with
                | nil => cases vs2 <;> exact emits_inline_nop
                | cons k2 ks3 =>
                    cases vs2 with
                    | nil => exact emits_inline_nop
                    | cons v2 vs3 =>
                        exact emits_inline_seq
                          (emits_inline_write ", " rfl rfl)
                          (ihdi (k2 :: ks3) (v2 :: vs3) (by omega) hks hvs)
      · -- visit_leading_args
        intro l k hsz hwf
        cases k with
        | zero => cases l <;> exact emits_inline_nop
        | succ k2 =>
            cases l with
            | nil => exact emits_inline_nop
            | cons a rest =>
                obtain ⟨⟨hab, haw⟩, hrest⟩ := wf_exprs_cons hwf
                rw [list_size_cons] at hsz
                simp only [visit_leading_args]
                exact emits_inline_ite _ (vI a (by omega) hab haw)
                  (emits_inline_seq (vI a (by omega) hab haw)
                    (emits_inline_seq (emits_inline_write ", " rfl rfl)
                      (ihla rest k2 (by omega) hrest)))
      · -- visit_default_pairs
        intro l k ds hsz hwf1 hwf2
        cases l with
        | nil => exact emits_inline_nop
        | cons x rest =>
            obtain ⟨⟨hxb, hxw⟩, hrest⟩ := wf_exprs_cons hwf1
            rw [list_size_cons] at hsz
            cases k with
            | succ k2 =>
                simp only [visit_default_pairs]
                exact ihdp rest k2 ds (by omega) hrest hwf2
            | zero =>
                cases ds with
                | nil => exact emits_inline_nop
                | cons d ds2 =>
                    obtain ⟨⟨hdb, hdw⟩, hds⟩ := wf_exprs_cons hwf2
                    rw [list_size_cons] at hsz
                    simp only [visit_default_pairs]
                    exact emits_inline_seq (vI x (by omega) hxb hxw)
                      (emits_inline_seq (emits_inline_write "=" rfl rfl)
                        (emits_inline_seq (vI d (by omega) hdb hdw)
                          (ihdp rest 0 ds2 (by omega) hrest hds)))
      · -- visit_kwonly_pairs
        intro l ds hsz hwf1 hwf2
        cases l with
        | nil => cases ds <;> exact emits_inline_nop
        | cons a as_ =>
            cases ds with
            | nil => exact emits_inline_nop
            | cons d ds2 =>
                obtain ⟨⟨hab, haw⟩, has⟩ := wf_exprs_cons hwf1
                rw [list_size_cons] at hsz
                cases d with
                | none =>
                    have hds2 : wf_optlist ds2 = true :=
                      wf_optlist_cons_none hwf2
                    rw [optlist_size_cons_none] at hsz
                    simp only [visit_kwonly_pairs]
                    refine emits_inline_seq (vI a (by omega) hab haw)
                      (emits_inline_seq emits_inline_nop ?_)
                    cases as_ with
                    | nil => cases ds2 <;> exact emits_inline_nop
                    | cons a2 as2 =>
                        cases ds2 with
                        | nil => exact emits_inline_nop
                        | cons d2 ds3 =>
                            exact emits_inline_seq
                              (emits_inline_write ", " rfl rfl)
                              (ihkw (a2 :: as2) (d2 :: ds3) (by omega)
                                has hds2)
                | some df =>
                    obtain ⟨⟨hdb, hdw⟩, hds2⟩ := wf_optlist_cons_some hwf2
                    rw [optlist_size_cons_some] at hsz
                    simp only [visit_kwonly_pairs]
                    refine emits_inline_seq (vI a (by omega) hab haw)
                      (emits_inline_seq
                        (emits_inline_seq (emits_inline_write "=" rfl rfl)
                          (vI df (by omega) hdb hdw)) ?_)
                    cases as_ with
                    | nil => cases ds2 <;> exact emits_inline_nop
                    | cons a2 as2 =>
                        cases ds2 with
                        | nil => exact emits_inline_nop
                        | cons d2 ds3 =>
                            exact emits_inline_seq
                              (emits_inline_write ", " rfl rfl)
                              (ihkw (a2 :: as2) (d2 :: ds3) (by omega)
                                has hds2)
      · -- visit_comprehension_ifs
        intro l hsz hwf
        cases l with
        | nil => exact emits_inline_nop
        | cons f rest =>
            obtain ⟨⟨hfb, hfw⟩, hrest⟩ := wf_exprs_cons hwf
            rw [list_size_cons] at hsz
            cases rest with
            | nil =>
                simp only [visit_comprehension_ifs]
                exact vI f (by omega) hfb hfw
            | cons g rest2 =>
                simp only [visit_comprehension_ifs]
                exact emits_inline_seq (vI f (by omega) hfb hfw)
                  (emits_inline_seq (emits_inline_write " if " rfl rfl)
                    (ihci (g :: rest2) (by omega) hrest))

/-! ## C2: dispatch on a node kind with no rendering rule

`_SourceWriter` extends `ast.NodeVisitor` and defines no error for
unhandled kinds: dispatch falls back to the inherited `generic_visit`,
which visits the node's AST children and writes nothing.  `NameConstant`
and `Index` have no `visit_` method in the class. -/

/-- **C2, counterexample.**  A tree containing a node kind with no
rendering rule (`NameConstant`, `Index`) renders *successfully*: dispatch
silently continues through `generic_visit` instead of aborting with a
fatal `UnsupportedNode` error (no such error exists in the library). -/
theorem no_unsupported_node_error :
    to_source (.Module [.Expr (.NameConstant .PyNone)]) = .ok "\n" ∧
    to_source (.Module [.Expr (.Index (.Name "x"))]) = .ok "x\n" :=
  ⟨rfl, rfl⟩

/-- **C2, amended.**  Dispatch on a node kind with no rendering rule
falls back to `generic_visit` and silently continues: visiting a
`NameConstant` writes nothing, changes no state and raises nothing;
visiting an `Index` node behaves exactly as visiting its `value` child;
and the renderer's only failure modes are the `IndexError` of
`statements[-1]` (and the embedding's fuel sentinel) — no
`UnsupportedNode` error condition exists. -/
theorem generic_visit_silently_continues :
    (∀ fuel v w, visit (fuel + 1) (.NameConstant v) w = ("", w, none)) ∧
    (∀ fuel e, visit (fuel + 1) (.Index e) = visit fuel e) ∧
    (∀ e : PyErr, e = .indexError ∨ e = .outOfFuel) := by
  refine ⟨fun fuel v w => rfl, fun fuel e => rfl, fun e => ?_⟩
  cases e
  · exact Or.inl rfl
  · exact Or.inr rfl

/-! ## C7: statement-sequence layout -/

/-- The separating text `visit_statements` writes after a statement that
is not the last of its sequence: one blank line after a `FunctionDef` or
`ClassDef`, nothing otherwise. -/
def sep_text : Ast → String
  | .FunctionDef _ _ _ _ _ => "\n"
  | .ClassDef _ _ _ _ _ _ _ => "\n"
  | _ => ""

theorem blank_after_line_start (s : Ast) (lvl : Nat) :
    blank_after s ⟨lvl, true⟩ = (sep_text s, ⟨lvl, true⟩, none) := by
  cases s <;> rfl

/-- **C7.**  Rendering a well-formed statement sequence decomposes per
statement: the leading statement's text is emitted first, ends with a line
terminator (so the next statement starts on its own line, at a line
start), and is followed by exactly `sep_text` — one blank separating line
for a `FunctionDef`/`ClassDef`, nothing for any other kind — before the
rendering of the remaining statements; a final (single) statement is
rendered with no separator appended after it. -/
theorem statement_sequence_layout : ∀ fuel lvl,
    (∀ s rest, list_size (s :: rest) ≤ fuel + 1 →
        wf_stmts (s :: rest) = true → rest ≠ [] →
      ∃ t u : String,
        visit fuel s ⟨lvl, true⟩ = (t, ⟨lvl, true⟩, none) ∧
        ends_nl t = true ∧
        visit_statements fuel rest ⟨lvl, true⟩ = (u, ⟨lvl, true⟩, none) ∧
        ends_nl u = true ∧
        visit_statements (fuel + 1) (s :: rest) ⟨lvl, true⟩ =
          ((t ++ sep_text s) ++ u, ⟨lvl, true⟩, none)) ∧
    (∀ s : Ast, visit_statements (fuel + 1) [s] = visit fuel s) := by
  intro fuel lvl
  constructor
  · intro s rest hsz hwf hne
    rcases rest with _ | ⟨t2, rest2⟩
    · exact absurd rfl hne
    · obtain ⟨⟨hbk, hw⟩, hrest⟩ := wf_stmts_cons2 hwf
      rw [list_size_cons] at hsz
      obtain ⟨t, het, hend, hlines⟩ :=
        ((visit_family_good fuel).1 s (by omega) hw).1 hbk lvl
      obtain ⟨u, heu, hendu, hlinesu⟩ :=
        (visit_family_good fuel).2.1 (t2 :: rest2) (by omega) hrest lvl
      refine ⟨t, u, het, hend, heu, hendu, ?_⟩
      simp only [visit_statements]
      rw [seq_eq (seq_eq het (blank_after_line_start s lvl)) heu]
  · intro s
    rfl

/-- Closed instance of C7's decomposition at `[Pass, Pass]`. -/
theorem statement_sequence_layout_witness :
    list_size [Ast.Pass, Ast.Pass] ≤ 6 ∧
    wf_stmts [Ast.Pass, Ast.Pass] = true ∧
    ∃ t u : String,
      visit 5 Ast.Pass ⟨0, true⟩ = (t, ⟨0, true⟩, none) ∧
      ends_nl t = true ∧
      visit_statements 5 [Ast.Pass] ⟨0, true⟩ = (u, ⟨0, true⟩, none) ∧
      ends_nl u = true ∧
      visit_statements 6 [Ast.Pass, Ast.Pass] ⟨0, true⟩ =
        ((t ++ sep_text Ast.Pass) ++ u, ⟨0, true⟩, none) :=
  ⟨by decide, rfl,
    (statement_sequence_layout 5 0).1 Ast.Pass [Ast.Pass] (by decide) rfl
      (by simp)⟩

/-! ## C6: indentation of body lines -/

/-- **C6, counterexample.**  The body text of a compound statement is not
always prefixed with exactly one indentation unit more than its header
line: in `if c:` / `if d:` / `pass`, the outer `If`'s header line carries
zero units while the body line `        pass` carries two units (it still
begins with spaces after one unit is removed), because indentation depth
reflects nesting, not a single step. -/
theorem nested_body_line_two_units :
    to_source (.Module [.If (.Name "c") [.If (.Name "d") [.Pass] []] []]) =
      .ok "if c:\n    if d:\n        pass\n" ∧
    split_nl ("if c:\n    if d:\n        pass\n".data) =
      ["if c:".data, "    if d:".data, "        pass".data, []] ∧
    (ind_chars 2).isPrefixOf "        pass".data = true ∧
    (ind_chars 1 ++ "pass".data) ≠ "        pass".data := by
  refine ⟨rfl, by decide, by decide, by decide⟩

/-- **C6, amended.**  Indentation is applied lazily and reflects the
current depth: at a line start, `write` emits exactly the current level's
indentation text before its payload and clears the flag; after the first
write of a line no further indentation is emitted; `write_newline` emits
the bare terminator with no indentation prefix (so a pure blank line is
never indented).  Consequently every line of a well-formed body block
rendered under one `indented` scope is blank or carries at least one more
indentation unit than the enclosing header's level. -/
theorem indentation_lazy_and_nested :
    (∀ s lvl, write s ⟨lvl, true⟩ =
        (indentation_text lvl ++ s, ⟨lvl, false⟩, none) ∧
      write s ⟨lvl, false⟩ = (s, ⟨lvl, false⟩, none)) ∧
    (∀ w, write_newline w = ("\n", ⟨w.indentation_level, true⟩, none)) ∧
    (∀ fuel body lvl, list_size body ≤ fuel → wf_stmts body = true →
      ∃ t : String,
        indented (visit_statements fuel body) ⟨lvl, true⟩ =
          (t, ⟨lvl, true⟩, none) ∧
        (split_nl t.data).all (line_ok (lvl + 1)) = true) := by
  refine ⟨fun s lvl => ⟨rfl, rfl⟩, fun w => rfl, ?_⟩
  intro fuel body lvl hsz hwf
  obtain ⟨t, he, hend, hl⟩ :=
    (visit_family_good fuel).2.1 body hsz hwf (lvl + 1)
  refine ⟨t, ?_, hl⟩
  unfold indented
  rw [he]
  dsimp only
  simp

/-- Closed instance of C6's amended statement at `[Pass]`. -/
theorem indentation_lazy_and_nested_witness :
    list_size [Ast.Pass] ≤ 3 ∧ wf_stmts [Ast.Pass] = true ∧
    ∃ t : String,
      indented (visit_statements 3 [Ast.Pass]) ⟨0, true⟩ =
        (t, ⟨0, true⟩, none) ∧
      (split_nl t.data).all (line_ok 1) = true :=
  ⟨by decide, rfl,
    indentation_lazy_and_nested.2.2 3 [Ast.Pass] 0 (by decide) rfl⟩

/-! ## C10: empty statement sequences raise `IndexError` -/

/-- **C10.**  `visit_statements` unconditionally indexes `statements[-1]`,
so an empty statement sequence raises `IndexError` from any writer state;
consequently `to_source` on a `Module` with an empty body fails with the
indexing error instead of returning empty text, and so does a compound
statement with an empty body list (shown for `If`: the header renders,
then the empty body's renderer raises, and the error propagates out of
`to_source` — no partial text is returned). -/
theorem to_source_empty_sequence_error :
    (∀ fuel w, visit_statements (fuel + 1) ([] : List Ast) w =
      ("", w, some PyErr.indexError)) ∧
    to_source (.Module []) = .error .indexError ∧
    (∀ test orelse, (!is_block_kind test) = true → wf test = true →
      to_source (.Module [.If test [] orelse]) = .error .indexError) := by
  refine ⟨fun fuel w => rfl, rfl, ?_⟩
  intro test orelse h1 h2
  obtain ⟨raw, hraw, he⟩ :=
    ((visit_family_good (ast_size test + list_size orelse + 2)).1 test
      (by omega) h2).2 (not_blk h1) 0 false
  have he2 : visit (ast_size test + list_size orelse + 2) test ⟨0, false⟩ =
      ("" ++ raw, ⟨0, false⟩, none) := he
  have c1 : write "if " ⟨0, true⟩ = ("if ", ⟨0, false⟩, none) := rfl
  have c2 : write ":" ⟨0, false⟩ = (":", ⟨0, false⟩, none) := rfl
  have c3 : write_newline ⟨0, false⟩ = ("\n", ⟨0, true⟩, none) := rfl
  have c4 : indented (visit_statements
      (ast_size test + list_size orelse + 2) []) ⟨0, true⟩ =
      ("", ⟨0, true⟩, some PyErr.indexError) := rfl
  have c5 : seq
      (indented (visit_statements
        (ast_size test + list_size orelse + 2) []))
      (if !orelse.isEmpty then
        seq (write_line "else:")
          (indented (visit_statements
            (ast_size test + list_size orelse + 2) orelse))
      else nop) ⟨0, true⟩ = ("", ⟨0, true⟩, some PyErr.indexError) :=
    seq_err c4
  have c6 := seq_eq c3 c5
  have c7 := seq_eq c2 c6
  have c8 := seq_eq he2 c7
  have c9 := seq_eq c1 c8
  unfold to_source
  have hS : ast_size (.Module [.If test [] orelse]) =
      ast_size test + list_size orelse + 5 := by
    simp [ast_size, list_size]
    omega
  rw [hS]
  rw [show visit (ast_size test + list_size orelse + 5)
      (.Module [.If test [] orelse]) ⟨0, true⟩ =
      seq (write "if ")
        (seq (visit (ast_size test + list_size orelse + 2) test)
          (seq (write ":")
            (seq write_newline
              (seq
                (indented (visit_statements
                  (ast_size test + list_size orelse + 2) []))
                (if !orelse.isEmpty then
                  seq (write_line "else:")
                    (indented (visit_statements
                      (ast_size test + list_size orelse + 2) orelse))
                else nop))))) ⟨0, true⟩ from rfl, c9]

/-- Closed instance of C10 at `If(Name c, [], [])`. -/
theorem to_source_empty_sequence_error_witness :
    to_source (.Module [.If (.Name "c") [] []]) = .error .indexError :=
  to_source_empty_sequence_error.2.2 (.Name "c") [] rfl (by decide)

/-! ## C9: `dump` and `annotate_fields`

`dump`'s inner `_format` renders an AST node as
`Kind(field=value, ...)` (`Kind(value, ...)` when `annotate_fields` is
false), a non-empty list as a multi-line `[` / indented `element,` lines /
indented `]` block at one deeper dump level, an empty list as `[]`, and
any other value by its `repr`.  `FV` is the field-value tree `_format`
walks: `iter_fields` output per node kind (in `_fields` order), with
leaf values pre-rendered by their `repr`. -/

inductive FV where
  | fatom (r : String)
  | fnode (name : String) (fields : List (String × FV))
  | flist (elems : List FV)

def boolop_class_name : boolop → String
  | .And => "And"
  | .Or => "Or"

def operator_class_name : operator → String
  | .Add => "Add"
  | .Sub => "Sub"
  | .Mult => "Mult"
  | .Div => "Div"
  | .Mod => "Mod"
  | .Pow => "Pow"
  | .LShift => "LShift"
  | .RShift => "RShift"
  | .BitOr => "BitOr"
  | .BitXor => "BitXor"
  | .BitAnd => "BitAnd"
  | .FloorDiv => "FloorDiv"

def unaryop_class_name : unaryop → String
  | .Invert => "Invert"
  | .Not => "Not"
  | .UAdd => "UAdd"
  | .USub => "USub"

def cmpop_class_name : cmpop → String
  | .Eq => "Eq"
  | .NotEq => "NotEq"
  | .Lt => "Lt"
  | .LtE => "LtE"
  | .Gt => "Gt"
  | .GtE => "GtE"
  | .Is => "Is"
  | .IsNot => "IsNot"
  | .In => "In"
  | .NotIn => "NotIn"

/-- `repr` of an identifier-valued field. -/
def fv_of_str (s : String) : FV := .fatom (str_repr s)

/-- `repr` of an optional-string field (`None` or a quoted string). -/
def fv_of_opt_str : Option String → FV
  | none => .fatom "None"
  | some s => .fatom (str_repr s)

def fv_str_list : List String → List FV
  | [] => []
  | s :: rest => .fatom (str_repr s) :: fv_str_list rest

def cmpops_fv : List cmpop → List FV
  | [] => []
  | op :: rest => .fnode (cmpop_class_name op) [] :: cmpops_fv rest

mutual

/-- The `iter_fields` walk of `dump`'s `_format`, per node kind, in
`_fields` order. -/
def ast_fv : Ast → FV
  | .Module body => .fnode "Module" [("body", .flist (fv_list body))]
  | .FunctionDef name args body decorator_list returns =>
      .fnode "FunctionDef"
        [("name", fv_of_str name), ("args", ast_fv args),
         ("body", .flist (fv_list body)),
         ("decorator_list", .flist (fv_list decorator_list)),
         ("returns", fv_opt returns)]
  | .ClassDef name bases keywords starargs kwargs body decorator_list =>
      .fnode "ClassDef"
        [("name", fv_of_str name), ("bases", .flist (fv_list bases)),
         ("keywords", .flist (fv_list keywords)),
         ("starargs", fv_opt starargs), ("kwargs", fv_opt kwargs),
         ("body", .flist (fv_list body)),
         ("decorator_list", .flist (fv_list decorator_list))]
  | .Return value => .fnode "Return" [("value", fv_opt value)]
  | .Delete targets => .fnode "Delete" [("targets", .flist (fv_list targets))]
  | .Assign targets value =>
      .fnode "Assign"
        [("targets", .flist (fv_list targets)), ("value", ast_fv value)]
  | .AugAssign target op value =>
      .fnode "AugAssign"
        [("target", ast_fv target),
         ("op", .fnode (operator_class_name op) []),
         ("value", ast_fv value)]
  | .For target iter body orelse =>
      .fnode "For"
        [("target", ast_fv target), ("iter", ast_fv iter),
         ("body", .flist (fv_list body)),
         ("orelse", .flist (fv_list orelse))]
  | .While test body orelse =>
      .fnode "While"
        [("test", ast_fv test), ("body", .flist (fv_list body)),
         ("orelse", .flist (fv_list orelse))]
  | .If test body orelse =>
      .fnode "If"
        [("test", ast_fv test), ("body", .flist (fv_list body)),
         ("orelse", .flist (fv_list orelse))]
  | .With items body =>
      .fnode "With"
        [("items", .flist (fv_list items)), ("body", .flist (fv_list body))]
  | .Raise exc cause =>
      .fnode "Raise" [("exc", fv_opt exc), ("cause", fv_opt cause)]
  | .Try body handlers orelse finalbody =>
      .fnode "Try"
        [("body", .flist (fv_list body)),
         ("handlers", .flist (fv_list handlers)),
         ("orelse", .flist (fv_list orelse)),
         ("finalbody", .flist (fv_list finalbody))]
  | .Assert test msg =>
      .fnode "Assert" [("test", ast_fv test), ("msg", fv_opt msg)]
  | .Import names => .fnode "Import" [("names", .flist (fv_list names))]
  | .ImportFrom module names level =>
      .fnode "ImportFrom"
        [("module", fv_of_opt_str module),
         ("names", .flist (fv_list names)),
         ("level", .fatom (int_repr level))]
  | .Global names => .fnode "Global" [("names", .flist (fv_str_list names))]
  | .Nonlocal names =>
      .fnode "Nonlocal" [("names", .flist (fv_str_list names))]
  | .Expr value => .fnode "Expr" [("value", ast_fv value)]
  | .Pass => .fnode "Pass" []
  | .Break => .fnode "Break" []
  | .Continue => .fnode "Continue" []
  | .BoolOp op values =>
      .fnode "BoolOp"
        [("op", .fnode (boolop_class_name op) []),
         ("values", .flist (fv_list values))]
  | .BinOp left op right =>
      .fnode "BinOp"
        [("left", ast_fv left), ("op", .fnode (operator_class_name op) []),
         ("right", ast_fv right)]
  | .UnaryOp op operand =>
      .fnode "UnaryOp"
        [("op", .fnode (unaryop_class_name op) []),
         ("operand", ast_fv operand)]
  | .Lambda args body =>
      .fnode "Lambda" [("args", ast_fv args), ("body", ast_fv body)]
  | .IfExp test body orelse =>
      .fnode "IfExp"
        [("test", ast_fv test), ("body", ast_fv body),
         ("orelse", ast_fv orelse)]
  | .Dict keys values =>
      .fnode "Dict"
        [("keys", .flist (fv_list keys)),
         ("values", .flist (fv_list values))]
  | .Set elts => .fnode "Set" [("elts", .flist (fv_list elts))]
  | .ListComp elt generators =>
      .fnode "ListComp"
        [("elt", ast_fv elt), ("generators", .flist (fv_list generators))]
  | .SetComp elt generators =>
      .fnode "SetComp"
        [("elt", ast_fv elt), ("generators", .flist (fv_list generators))]
  | .DictComp key value generators =>
      .fnode "DictComp"
        [("key", ast_fv key), ("value", ast_fv value),
         ("generators", .flist (fv_list generators))]
  | .GeneratorExp elt generators =>
      .fnode "GeneratorExp"
        [("elt", ast_fv elt), ("generators", .flist (fv_list generators))]
  | .Yield value => .fnode "Yield" [("value", fv_opt value)]
  | .YieldFrom value => .fnode "YieldFrom" [("value", ast_fv value)]
  | .Compare left ops comparators =>
      .fnode "Compare"
        [("left", ast_fv left), ("ops", .flist (cmpops_fv ops)),
         ("comparators", .flist (fv_list comparators))]
  | .Call func args keywords starargs kwargs =>
      .fnode "Call"
        [("func", ast_fv func), ("args", .flist (fv_list args)),
         ("keywords", .flist (fv_list keywords)),
         ("starargs", fv_opt starargs), ("kwargs", fv_opt kwargs)]
  | .Num n => .fnode "Num" [("n", .fatom (int_repr n))]
  | .Str s => .fnode "Str" [("s", .fatom (str_repr s))]
  | .Bytes s => .fnode "Bytes" [("s", .fatom (bytes_repr s))]
  | .Ellipsis => .fnode "Ellipsis" []
  | .NameConstant value =>
      .fnode "NameConstant" [("value", .fatom (name_constant_repr value))]
  | .Attribute value attr =>
      .fnode "Attribute" [("value", ast_fv value), ("attr", fv_of_str attr)]
  | .Subscript value slice =>
      .fnode "Subscript" [("value", ast_fv value), ("slice", ast_fv slice)]
  | .Starred value => .fnode "Starred" [("value", ast_fv value)]
  | .Name id => .fnode "Name" [("id", fv_of_str id)]
  | .List elts => .fnode "List" [("elts", .flist (fv_list elts))]
  | .Tuple elts => .fnode "Tuple" [("elts", .flist (fv_list elts))]
  | .Slice lower upper step =>
      .fnode "Slice"
        [("lower", fv_opt lower), ("upper", fv_opt upper),
         ("step", fv_opt step)]
  | .Index value => .fnode "Index" [("value", ast_fv value)]
  | .comprehension target iter ifs =>
      .fnode "comprehension"
        [("target", ast_fv target), ("iter", ast_fv iter),
         ("ifs", .flist (fv_list ifs))]
  | .ExceptHandler type name body =>
      .fnode "ExceptHandler"
        [("type", fv_opt type), ("name", fv_of_opt_str name),
         ("body", .flist (fv_list body))]
  | .arguments args vararg kwonlyargs kw_defaults kwarg defaults =>
      .fnode "arguments"
        [("args", .flist (fv_list args)), ("vararg", fv_of_opt_str vararg),
         ("kwonlyargs", .flist (fv_list kwonlyargs)),
         ("kw_defaults", .flist (fv_optlist kw_defaults)),
         ("kwarg", fv_of_opt_str kwarg),
         ("defaults", .flist (fv_list defaults))]
  | .arg a annot =>
      .fnode "arg" [("arg", fv_of_str a), ("annotation", fv_opt annot)]
  | .keyword a value =>
      .fnode "keyword" [("arg", fv_of_str a), ("value", ast_fv value)]
  | .alias name asname =>
      .fnode "alias"
        [("name", fv_of_str name), ("asname", fv_of_opt_str asname)]
  | .withitem context_expr optional_vars =>
      .fnode "withitem"
        [("context_expr", ast_fv context_expr),
         ("optional_vars", fv_opt optional_vars)]

def fv_list : List Ast → List FV
  | [] => []
  | x :: xs => ast_fv x :: fv_list xs

def fv_opt : Option Ast → FV
  | none => .fatom "None"
  | some a => ast_fv a

def fv_optlist : List (Option Ast) → List FV
  | [] => []
  | none :: rest => .fatom "None" :: fv_optlist rest
  | some a :: rest => ast_fv a :: fv_optlist rest

end

def join_comma : List String → String
  | [] => ""
  | [x] => x
  | x :: rest => x ++ ", " ++ join_comma rest

def join_nl : List String → String
  | [] => ""
  | [x] => x
  | x :: rest => x ++ "\n" ++ join_nl rest

mutual

/-- `_format(node, level)`: `Kind(...)` for a node (field rendering
annotated or not per the flag), a multi-line indented block for a
non-empty list, `[]` for an empty one, the pre-rendered `repr` for a
leaf. -/
def format_fv (annotate : Bool) (level : Nat) : FV → String
  | .fatom r => r
  | .fnode name fields =>
      name ++ "(" ++ join_comma (format_fields annotate level fields) ++ ")"
  | .flist [] => "[]"
  | .flist (e :: rest) =>
      join_nl ("[" :: (format_elems annotate (level + 1) (e :: rest) ++
        [indentation_text (level + 1) ++ "]"]))

/-- One rendered entry per field: `name=value` when annotating, bare
`value` otherwise. -/
def format_fields (annotate : Bool) (level : Nat) :
    List (String × FV) → List String
  | [] => []
  | (a, b) :: rest =>
      ((if annotate then a ++ "=" else "") ++ format_fv annotate level b) ::
        format_fields annotate level rest

/-- One line per list element: indentation, the element at the deeper
level, a trailing comma. -/
def format_elems (annotate : Bool) (level : Nat) : List FV → List String
  | [] => []
  | x :: rest =>
      (indentation_text level ++ format_fv annotate level x ++ ",") ::
        format_elems annotate level rest

end

/-- `dump(node, annotate_fields, include_attributes=False)`. -/
def dump (annotate_fields : Bool) (node : Ast) : String :=
  format_fv annotate_fields 0 (ast_fv node)

mutual

def fv_size : FV → Nat
  | .fatom _ => 1
  | .fnode _ fields => 1 + fvf_size fields
  | .flist elems => 1 + fvl_size elems

def fvf_size : List (String × FV) → Nat
  | [] => 1
  | (_, b) :: rest => 1 + fv_size b + fvf_size rest

def fvl_size : List FV → Nat
  | [] => 1
  | x :: rest => 1 + fv_size x + fvl_size rest

end

example : dump true (.Name "x") = "Name(id='x')" := rfl

example : dump false (.Name "x") = "Name('x')" := rfl

example : dump true (.Module [.Pass]) =
    "Module(body=[\n    Pass(),\n    ])" := rfl

example : dump false (.Module [.Pass]) =
    "Module([\n    Pass(),\n    ])" := rfl

example : dump true (.BinOp (.Num 1) .Add (.Num 2)) =
    "BinOp(left=Num(n=1), op=Add(), right=Num(n=2))" := rfl

example : dump false (.BinOp (.Num 1) .Add (.Num 2)) =
    "BinOp(Num(1), Add(), Num(2))" := rfl

theorem fv_size_pos (fv : FV) : 1 ≤ fv_size fv := by
  cases fv <;> simp [fv_size] <;> omega

theorem fvf_size_pos (l : List (String × FV)) : 1 ≤ fvf_size l := by
  cases l with
  | nil => simp [fvf_size]
  | cons p rest => cases p <;> simp [fvf_size] <;> omega

theorem fvl_size_pos (l : List FV) : 1 ≤ fvl_size l := by
  cases l <;> simp [fvl_size] <;> omega

/-- Concatenation of prefixed pieces with the prefixes kept. -/
def glue_full : List (String × String) → String
  | [] => ""
  | p :: rest => p.1 ++ (p.2 ++ glue_full rest)

/-- Concatenation of prefixed pieces with the prefixes omitted. -/
def glue_values : List (String × String) → String
  | [] => ""
  | p :: rest => p.2 ++ glue_values rest

/-- `s` and `t` decompose into one shared ordered sequence of value
tokens, `s` keeping and `t` omitting the field-name-and-equals-sign
prefixes. -/
def DP (s t : String) : Prop :=
  ∃ pieces : List (String × String),
    (∀ p ∈ pieces, p.1 = "" ∨ ∃ a : String, p.1 = a ++ "=") ∧
    s = glue_full pieces ∧ t = glue_values pieces

theorem glue_full_append (P Q : List (String × String)) :
    glue_full (P ++ Q) = glue_full P ++ glue_full Q := by
  induction P with
  | nil =>
      show glue_full Q = "" ++ glue_full Q
      rw [String.empty_append]
  | cons p rest ih =>
      show p.1 ++ (p.2 ++ glue_full (rest ++ Q)) = _
      rw [ih]
      simp [glue_full, String.append_assoc]

theorem glue_values_append (P Q : List (String × String)) :
    glue_values (P ++ Q) = glue_values P ++ glue_values Q := by
  induction P with
  | nil =>
      show glue_values Q = "" ++ glue_values Q
      rw [String.empty_append]
  | cons p rest ih =>
      show p.2 ++ glue_values (rest ++ Q) = _
      rw [ih]
      simp [glue_values, String.append_assoc]

theorem DP_const (c : String) : DP c c := by
  refine ⟨[("", c)], by simp, ?_, ?_⟩
  · show c = "" ++ (c ++ "")
    rw [String.empty_append, String.append_empty]
  · show c = c ++ ""
    rw [String.append_empty]

theorem DP_append {s1 t1 s2 t2 : String} (h1 : DP s1 t1) (h2 : DP s2 t2) :
    DP (s1 ++ s2) (t1 ++ t2) := by
  obtain ⟨P, hpP, hs1, ht1⟩ := h1
  obtain ⟨Q, hpQ, hs2, ht2⟩ := h2
  refine ⟨P ++ Q, ?_, ?_, ?_⟩
  · intro p hp
    rcases List.mem_append.mp hp with h | h
    · exact hpP p h
    · exact hpQ p h
  · rw [hs1, hs2, glue_full_append]
  · rw [ht1, ht2, glue_values_append]

theorem DP_annotated (a : String) {s t : String} (h : DP s t) :
    DP ((a ++ "=") ++ s) ("" ++ t) := by
  obtain ⟨P, hpP, hs, ht⟩ := h
  refine ⟨(a ++ "=", "") :: P, ?_, ?_, ?_⟩
  · intro p hp
    rcases List.mem_cons.mp hp with h | h
    · exact Or.inr ⟨a, by rw [h]⟩
    · exact hpP p h
  · show (a ++ "=") ++ s = (a ++ "=") ++ ("" ++ glue_full P)
    rw [String.empty_append, hs]
  · show "" ++ t = "" ++ glue_values P
    rw [ht]

theorem join_nl_cons_of_ne (x : String) {l : List String} (h : l ≠ []) :
    join_nl (x :: l) = x ++ "\n" ++ join_nl l := by
  cases l with
  | nil => exact absurd rfl h
  | cons y r => rfl

set_option maxHeartbeats 1000000 in
/-- `_format` with and without `annotate_fields` produce texts related by
`DP` (shared value tokens, prefixes kept/omitted), simultaneously for a
field value, a rendered field list, and a rendered element block — by
induction on the size of the field-value tree. -/
theorem dump_pieces_aux : ∀ n : Nat,
    (∀ fv lvl, fv_size fv ≤ n →
      DP (format_fv true lvl fv) (format_fv false lvl fv)) ∧
    (∀ fields lvl, fvf_size fields ≤ n →
      DP (join_comma (format_fields true lvl fields))
        (join_comma (format_fields false lvl fields))) ∧
    (∀ elems lvl, fvl_size elems ≤ n →
      DP (join_nl (format_elems true lvl elems ++
            [indentation_text lvl ++ "]"]))
        (join_nl (format_elems false lvl elems ++
            [indentation_text lvl ++ "]"]))) := by
  intro n
  induction n with
  | zero =>
      refine ⟨?_, ?_, ?_⟩
      · intro fv lvl hsz
        exact absurd hsz (by have := fv_size_pos fv; omega)
      · intro fields lvl hsz
        exact absurd hsz (by have := fvf_size_pos fields; omega)
      · intro elems lvl hsz
        exact absurd hsz (by have := fvl_size_pos elems; omega)
  | succ n ih =>
      obtain ⟨ihf, ihfl, ihel⟩ := ih
      refine ⟨?_, ?_, ?_⟩
      · intro fv lvl hsz
        cases fv with
        | fatom r => exact DP_const r
        | fnode name fields =>
            replace hsz : 1 + fvf_size fields ≤ n + 1 := hsz
            simp only [format_fv]
            exact DP_append
              (DP_append (DP_append (DP_const name) (DP_const "("))
                (ihfl fields lvl (by omega)))
              (DP_const ")")
        | flist elems =>
            cases elems with
            | nil => exact DP_const "[]"
            | cons e rest =>
                replace hsz : 1 + fvl_size (e :: rest) ≤ n + 1 := hsz
                simp only [format_fv]
                rw [join_nl_cons_of_ne _ (by simp),
                  join_nl_cons_of_ne _ (by simp)]
                exact DP_append (DP_append (DP_const "[") (DP_const "\n"))
                  (ihel (e :: rest) (lvl + 1) (by omega))
      · intro fields lvl hsz
        cases fields with
        | nil => exact DP_const ""
        | cons pb rest =>
            obtain ⟨a, b⟩ := pb
            replace hsz : 1 + fv_size b + fvf_size rest ≤ n + 1 := hsz
            cases rest with
            | nil =>
                simp only [format_fields, join_comma]
                exact DP_annotated a (ihf b lvl (by omega))
            | cons pc rest2 =>
                obtain ⟨c, d⟩ := pc
                simp only [format_fields, join_comma]
                exact DP_append
                  (DP_append (DP_annotated a (ihf b lvl (by omega)))
                    (DP_const ", "))
                  (ihfl ((c, d) :: rest2) lvl (by omega))
      · intro elems lvl hsz
        cases elems with
        | nil => exact DP_const (indentation_text lvl ++ "]")
        | cons e rest =>
            replace hsz : 1 + fv_size e + fvl_size rest ≤ n + 1 := hsz
            simp only [format_elems, List.cons_append]
            rw [join_nl_cons_of_ne _ (by simp),
              join_nl_cons_of_ne _ (by simp)]
            exact DP_append
              (DP_append
                (DP_append
                  (DP_append (DP_const (indentation_text lvl))
                    (ihf e lvl (by omega)))
                  (DP_const ","))
                (DP_const "\n"))
              (ihel rest lvl (by omega))

/-- **C9.**  For every AST node, `dump` without field annotations carries
exactly the same value tokens as `dump` with them, in the same order: the
two outputs decompose into one shared ordered piece sequence where the
annotated output keeps each piece's field-name-and-equals-sign prefix and
the unannotated output omits it, at every nesting level. -/
theorem dump_annotate_fields_value_tokens :
    ∀ node : Ast, ∃ pieces : List (String × String),
      (∀ p ∈ pieces, p.1 = "" ∨ ∃ a : String, p.1 = a ++ "=") ∧
      dump true node = glue_full pieces ∧
      dump false node = glue_values pieces := by
  intro node
  exact (dump_pieces_aux (fv_size (ast_fv node))).1 (ast_fv node) 0
    (Nat.le_refl _)

end Zweig
